import Mathlib

/-!
# tidy-ts: QR least-squares orchestration and GLM deviance residuals

A shallow embedding of

* `qr_solve`      (src/qr/mAR-specific.c, build path),
* `qr_coef_real`  (src/qr/Lapack-specific.c, apply path),
* `gaussian_dev_resids`, `poisson_dev_resids`, `binomial_dev_resids`
  (src/src/dataframe/rust/stats/regression/family/*.c).

The C functions never inspect a `double` of the QR buffers themselves: they
move values between buffers and hand them to the Fortran primitives.  The
scalar type is therefore a parameter `α`, and the Fortran primitives
(`dqrdc2`, `dqrcf`, `dormqr`, `dtrtrs`) are parameters as well: they are
external collaborators of the repository.  Memory is explicit: buffers live
in cells addressed by natural numbers, and every call of a primitive is
recorded in a trace together with the addresses it was handed.
-/

namespace TidyTs

/-! ## Errors -/

/-- An argument of a formatted `error(...)` call. -/
inductive ErrArg where
  | int (i : Int)
  | str (s : String)
  deriving DecidableEq, Repr

/-- The two ways in which the C code leaves a function abruptly: a failed
`assert(e)` and a call of R's `error(fmt, args...)`, which does not return. -/
inductive RError where
  | assertion (e : String)
  | error (fmt : String) (args : List ErrArg)
  deriving DecidableEq, Repr

/-! ## Memory of the build path -/

/-- A memory cell: a buffer of doubles or a buffer of C ints. -/
inductive Cell (α : Type) where
  | dbl (v : List α)
  | int (v : List Int)
  deriving DecidableEq, Repr

/-- What the build path does that a caller could observe. Addresses are the
ones handed over; `dqrdc2` and `dqrcf` also record what they reported. -/
inductive Event where
  | alloc (ptr : Nat) (len : Nat)
  | transpose (src : Nat) (dst : Nat)
  | dqrdc2 (x : Nat) (qraux : Nat) (pivot : Nat) (work : Nat) (rank : Int)
  | dqrcf (x : Nat) (qraux : Nat) (y : Nat) (b : Nat) (info : Int)
  deriving DecidableEq, Repr

/-- Modelled from the spec: the scoped-allocation arena of section 9 (the
definitions of `vmaxget`, `vmaxset` and `R_alloc` are not part of the source
files). Buffers are cells addressed by natural numbers; `vmax` is the
high-water mark: every address below it is live, `R_alloc` hands out the
address `vmax` and raises the mark, `vmaxset` lowers the mark again. -/
structure Machine (α : Type) where
  mem : Nat → Cell α
  vmax : Nat
  trace : List Event

/-- Modelled from the spec: the Matrix of section 3 (the `Array` struct and
its accessors `NROW`, `NCOL`, `VECTOR` are not part of the source files): a
buffer address with an explicit row count and column count. The caller's
element order is row-major: element `[i][j]` is at offset `i * ncol + j`. -/
structure Array where
  vec : Nat
  nrow : Nat
  ncol : Nat
  deriving DecidableEq, Repr

/-- The macro `NROW`. -/
def NROW (a : Array) : Nat := a.nrow

/-- The macro `NCOL`. -/
def NCOL (a : Array) : Nat := a.ncol

/-- The macro `VECTOR`. -/
def VECTOR (a : Array) : Nat := a.vec

/-- The doubles stored at an address (`[]` when the cell holds ints). -/
def Machine.dbls {α : Type} (s : Machine α) (ptr : Nat) : List α :=
  match s.mem ptr with
  | .dbl v => v
  | .int _ => []

/-- The ints stored at an address (`[]` when the cell holds doubles). -/
def Machine.ints {α : Type} (s : Machine α) (ptr : Nat) : List Int :=
  match s.mem ptr with
  | .dbl _ => []
  | .int v => v

/-- Overwrite the cell at an address. -/
def Machine.store {α : Type} (s : Machine α) (ptr : Nat) (c : Cell α) : Machine α :=
  { s with mem := Function.update s.mem ptr c }

/-- Append an event to the trace. -/
def Machine.emit {α : Type} (s : Machine α) (e : Event) : Machine α :=
  { s with trace := s.trace ++ [e] }

/-- What `dqrdc2` leaves behind: it overwrites `x`, `qraux`, `pivot` and
`work` and sets `rank`. -/
structure Dqrdc2Out (α : Type) where
  x : List α
  rank : Int
  qraux : List α
  pivot : List Int
  work : List α

/-- What `dqrcf` leaves behind: `y` is overwritten, the coefficients go to
`b`, the diagnostic code to `info`. `x` and `qraux` are returned too, so
that nothing is assumed about what the routine does to them. -/
structure DqrcfOut (α : Type) where
  x : List α
  qraux : List α
  y : List α
  b : List α
  info : Int

/-- The environment of the build path: the Fortran primitives declared in
src/qr/Applic-specific.h, the constant `tol = 1.0E-7`, the value `0.0` and
the (unspecified) content of freshly allocated memory. -/
structure Prims (α : Type) where
  zero : α
  tol : α
  uninit : α
  uninitInt : Int
  /-- The call `dqrdc2(x, ldx, n, p, tol, rank, qraux, pivot, work)`. -/
  dqrdc2 : List α → Nat → Nat → Nat → α → List α → List Int → List α → Dqrdc2Out α
  /-- The call `dqrcf(x, n, k, qraux, y, ny, b, info)`. -/
  dqrcf : List α → Nat → Int → List α → List α → Nat → List α → Int → DqrcfOut α

/-- The current mark of the arena. -/
def vmaxget {α : Type} (s : Machine α) : Nat := s.vmax

/-- Reset the mark of the arena. -/
def vmaxset {α : Type} (m : Nat) (s : Machine α) : Machine α :=
  { s with vmax := m }

/-- `R_alloc(n, sizeof(double))`: a fresh buffer of `n` doubles of
unspecified content. -/
def R_alloc_double {α : Type} (P : Prims α) (n : Nat) (s : Machine α) : Nat × Machine α :=
  (s.vmax,
   { mem := Function.update s.mem s.vmax (.dbl (List.replicate n P.uninit)),
     vmax := s.vmax + 1,
     trace := s.trace ++ [.alloc s.vmax n] })

/-- `R_alloc(n, sizeof(int))`: a fresh buffer of `n` ints of unspecified
content. -/
def R_alloc_int {α : Type} (P : Prims α) (n : Nat) (s : Machine α) : Nat × Machine α :=
  (s.vmax,
   { mem := Function.update s.mem s.vmax (.int (List.replicate n P.uninitInt)),
     vmax := s.vmax + 1,
     trace := s.trace ++ [.alloc s.vmax n] })

/-- Modelled from the spec: `make_zero_matrix(nrow, ncol)` is not part of
the source files. It yields a fresh matrix of the given shape, every element
zero, whose buffer belongs to the arena of the call (section 5: the
transposed copies are scratch buffers). -/
def make_zero_matrix {α : Type} (P : Prims α) (nrow ncol : Nat) (s : Machine α) :
    Array × Machine α :=
  ({ vec := s.vmax, nrow := nrow, ncol := ncol },
   { mem := Function.update s.mem s.vmax (.dbl (List.replicate (nrow * ncol) P.zero)),
     vmax := s.vmax + 1,
     trace := s.trace ++ [.alloc s.vmax (nrow * ncol)] })

/-- The transposed data of a row-major `nrow × ncol` buffer: a row-major
`ncol × nrow` buffer whose element `[j][i]`, at offset `j * nrow + i`, is
the element `[i][j]` of the source, at offset `i * ncol + j`. -/
def transposeData {α : Type} (dflt : α) (src : List α) (nrow ncol : Nat) : List α :=
  (List.range (ncol * nrow)).map (fun k => src.getD ((k % nrow) * ncol + k / nrow) dflt)

/-- Modelled from the spec: `transpose_matrix(mat, ans)` is not part of the
source files. Section 4.3: given a matrix in one layout it produces the
matrix of transposed shape, fully copying the data (no aliasing); here the
copy is stored in the buffer of `ans`. -/
def transpose_matrix {α : Type} (P : Prims α) (mat ans : Array) (s : Machine α) : Machine α :=
  { s with
    mem := Function.update s.mem ans.vec
      (.dbl (transposeData P.zero (s.dbls mat.vec) (NROW mat) (NCOL mat))),
    trace := s.trace ++ [.transpose mat.vec ans.vec] }

/-- One iteration `pivot[i] = i+1` of the loop of line 24. -/
def setPivot {α : Type} (pivot : Nat) (s : Machine α) (i : Nat) : Machine α :=
  s.store pivot (.int ((s.ints pivot).set i ((i : Int) + 1)))

/-- The call of `dqrdc2` of line 33: the primitive reads and overwrites the
four buffers it is handed and reports a rank. -/
def call_dqrdc2 {α : Type} (P : Prims α) (x ldx n p qraux pivot work : Nat) (s : Machine α) :
    Int × Machine α :=
  let r := P.dqrdc2 (s.dbls x) ldx n p P.tol (s.dbls qraux) (s.ints pivot) (s.dbls work)
  (r.rank,
   ((((s.store x (.dbl r.x)).store qraux (.dbl r.qraux)).store pivot (.int r.pivot)).store
      work (.dbl r.work)).emit (.dqrdc2 x qraux pivot work r.rank))

/-- The call of `dqrcf` of line 43: the primitive reads and overwrites the
four buffers it is handed and sets `info`. -/
def call_dqrcf {α : Type} (P : Prims α) (x n : Nat) (k : Int) (qraux y ny b : Nat) (info : Int)
    (s : Machine α) : Int × Machine α :=
  let r := P.dqrcf (s.dbls x) n k (s.dbls qraux) (s.dbls y) ny (s.dbls b) info
  (r.info,
   ((((s.store x (.dbl r.x)).store qraux (.dbl r.qraux)).store y (.dbl r.y)).store
      b (.dbl r.b)).emit (.dqrcf x qraux y b r.info))

/-- How a call ends: normally, or with an error; in both cases in a state. -/
structure Exit (α : Type) (ρ : Type) where
  result : Except RError ρ
  state : Machine α

/-- The locals of `qr_solve` that are live after the factorization. -/
structure QrLocals (α : Type) where
  vmax : Nat
  qraux : Nat
  pivot : Nat
  work : Nat
  xt : Array
  rank : Int
  state : Machine α

/-- Lines 18-28 of `qr_solve`: save the mark, allocate `qraux`, `pivot` and
`work`, initialise the pivot vector and transpose `x` into the fresh `xt`.
The field `rank` is not yet set. -/
def qr_scratch {α : Type} (P : Prims α) (x : Array) (s0 : Machine α) : QrLocals α :=
  let vmax := vmaxget s0
  let a1 := R_alloc_double P (NCOL x) s0
  let a2 := R_alloc_int P (NCOL x) a1.2
  let a3 := R_alloc_double P (2 * NCOL x) a2.2
  let s4 := (List.range (NCOL x)).foldl (setPivot a2.1) a3.2
  let a5 := make_zero_matrix P (NCOL x) (NROW x) s4
  let s6 := transpose_matrix P x a5.1 a5.2
  { vmax := vmax, qraux := a1.1, pivot := a2.1, work := a3.1, xt := a5.1, rank := 0,
    state := s6 }

/-- Lines 18-34 of `qr_solve`: after `qr_scratch`, factorize `xt` with
`dqrdc2`, with `n` rows, `p` columns and leading dimension `n`. -/
def qr_factor {α : Type} (P : Prims α) (x : Array) (s0 : Machine α) : QrLocals α :=
  let l := qr_scratch P x s0
  let n := NROW x
  let p := NCOL x
  let c7 := call_dqrdc2 P (VECTOR l.xt) n n p l.qraux l.pivot l.work l.state
  { l with rank := c7.1, state := c7.2 }

/-- The locals of `qr_solve` after the call of `dqrcf`. -/
structure QrSolved (α : Type) where
  info : Int
  coeft : Array
  state : Machine α

/-- Lines 39-44 of `qr_solve`: allocate `yt` and `coeft`, transpose `y`
into `yt` and solve with `dqrcf`, which sets `info`. -/
def qr_backsolve {α : Type} (P : Prims α) (x y coef : Array) (f : QrLocals α) (info : Int) :
    QrSolved α :=
  let a8 := make_zero_matrix P (NCOL y) (NROW y) f.state
  let a9 := make_zero_matrix P (NCOL coef) (NROW coef) a8.2
  let s10 := transpose_matrix P y a8.1 a9.2
  let c11 := call_dqrcf P (VECTOR f.xt) (NROW x) f.rank f.qraux a8.1.vec (NCOL y) a9.1.vec
    info s10
  { info := c11.1, coeft := a9.1, state := c11.2 }

/-- The source function `qr_solve` (src/qr/mAR-specific.c, lines 3-49),
statement by statement; lines 18-34 are `qr_factor` and lines 39-44 are
`qr_backsolve`. `assert` is the checked assertion (its definition is not
part of the source files); `error` does not return, so the statements after
it are not executed. The value of `info` is not read after the call of
`dqrcf`. -/
def qr_solve {α : Type} (P : Prims α) (x y coef : Array) (s0 : Machine α) : Exit α Unit :=
  let info : Int := 0
  if NROW x ≠ NROW y then ⟨.error (.assertion "NROW(x) == NROW(y)"), s0⟩ else
  if NCOL coef ≠ NCOL y then ⟨.error (.assertion "NCOL(coef) == NCOL(y)"), s0⟩ else
  if NCOL x ≠ NROW coef then ⟨.error (.assertion "NCOL(x) == NROW(coef)"), s0⟩ else
  let f := qr_factor P x s0
  if f.rank ≠ (NCOL x : Int) then ⟨.error (.error "Singular matrix in qr_solve" []), f.state⟩ else
  let b := qr_backsolve P x y coef f info
  let s12 := transpose_matrix P b.coeft coef b.state
  let s13 := vmaxset f.vmax s12
  ⟨.ok (), s13⟩

/-- Modelled from the spec: the unwinding done by `error`, which is not part
of the source files. Sections 5 and 9: the scratch buffers of a call belong
to an arena scoped to the call and are released when the call is left,
also when it is left through an error. So when a call that was entered at
the mark `mark` ends with an error, the arena is back at `mark`; a normal
return is left as the function made it. -/
def unwind {α ρ : Type} (mark : Nat) (e : Exit α ρ) : Exit α ρ :=
  match e.result with
  | .error _ => { e with state := vmaxset mark e.state }
  | .ok _ => e

/-- A call of `qr_solve` as its caller observes it: the function body,
followed on an error exit by the unwinding of `error`. -/
def qr_solve_call {α : Type} (P : Prims α) (x y coef : Array) (s0 : Machine α) : Exit α Unit :=
  unwind (vmaxget s0) (qr_solve P x y coef s0)

/-- The result that `dqrdc2` returns when it is handed the transposed data
of `x`, the dimensions `n`, `n`, `p`, the tolerance and the scratch buffers
of `qr_scratch` (shown to be its result in `qr_factor` by `qr_factor_rank`,
`qr_factor_xt_data` and `qr_factor_qraux_data`). -/
def factorOut {α : Type} (P : Prims α) (x : Array) (s : Machine α) : Dqrdc2Out α :=
  P.dqrdc2 (transposeData P.zero (s.dbls x.vec) (NROW x) (NCOL x)) (NROW x) (NROW x) (NCOL x)
    P.tol ((qr_scratch P x s).state.dbls s.vmax) ((qr_scratch P x s).state.ints (s.vmax + 1))
    ((qr_scratch P x s).state.dbls (s.vmax + 2))

/-- The result that `dqrcf` returns when it is handed the buffers of `xt`
and `qraux` as they are in `f`, the transposed data of `y`, the dimensions
`n`, `k = rank`, `ny` and a zeroed `b` (shown to be its result in
`qr_backsolve` by `qr_backsolve_args`). -/
def backsolveOut {α : Type} (P : Prims α) (x y coef : Array) (f : QrLocals α) (i : Int) :
    DqrcfOut α :=
  P.dqrcf (f.state.dbls f.xt.vec) (NROW x) f.rank (f.state.dbls f.qraux)
    (transposeData P.zero (f.state.dbls y.vec) (NROW y) (NCOL y)) (NCOL y)
    (List.replicate (NCOL coef * NROW coef) P.zero) i

/-! ## Observations on traces -/

/-- The ranks reported by the calls of `dqrdc2` recorded in a trace. -/
def dqrdc2Ranks (t : List Event) : List Int :=
  t.filterMap (fun e => match e with
    | .dqrdc2 _ _ _ _ r => some r
    | _ => none)

/-- The diagnostic codes set by the calls of `dqrcf` recorded in a trace. -/
def dqrcfInfos (t : List Event) : List Int :=
  t.filterMap (fun e => match e with
    | .dqrcf _ _ _ _ i => some i
    | _ => none)

/-- The addresses handed to the primitives in a trace. -/
def primAddrs (t : List Event) : List Nat :=
  t.flatMap (fun e => match e with
    | .dqrdc2 x q pv w _ => [x, q, pv, w]
    | .dqrcf x q y b _ => [x, q, y, b]
    | _ => [])

/-- The buffers allocated in a trace. -/
def allocAddrs (t : List Event) : List Nat :=
  t.filterMap (fun e => match e with
    | .alloc a _ => some a
    | _ => none)

/-- The transposes made in a trace, as (source, destination). -/
def transposes (t : List Event) : List (Nat × Nat) :=
  t.filterMap (fun e => match e with
    | .transpose a b => some (a, b)
    | _ => none)

/-- A buffer holds the `r × c` matrix `M` in row-major order, the layout of
the caller: element `(i, j)` at offset `i * c + j`. -/
def RowMajor {α : Type} (buf : List α) (r c : Nat) (M : Nat → Nat → α) : Prop :=
  buf.length = r * c ∧ ∀ i, i < r → ∀ j, j < c → buf[i * c + j]? = some (M i j)

/-- A buffer holds the `r × c` matrix `M` in column-major order with leading
dimension `r`, the layout of the Fortran primitives: element `(i, j)` at
offset `j * r + i`. -/
def ColMajor {α : Type} (buf : List α) (r c : Nat) (M : Nat → Nat → α) : Prop :=
  buf.length = r * c ∧ ∀ i, i < r → ∀ j, j < c → buf[j * r + i]? = some (M i j)

/-- Scripted primitives over the integers, for evaluating the functions on
concrete inputs: `dqrdc2` clobbers every buffer it is handed and reports
`rank`; `dqrcf` clobbers `y`, delivers `b` and sets `info`. -/
def scripted (rank : Int) (b : List Int) (info : Int) : Prims Int where
  zero := 0
  tol := 0
  uninit := 77
  uninitInt := 77
  dqrdc2 := fun x _ _ _ _ qraux pivot work =>
    { x := x.map (fun _ => -1), rank := rank, qraux := qraux.map (fun _ => -2),
      pivot := pivot.reverse, work := work.map (fun _ => -3) }
  dqrcf := fun x _ _ qraux y _ _ _ =>
    { x := x, qraux := qraux, y := y.map (fun _ => -4), b := b, info := info }

/-- A memory holding the row-major buffers of `x`, `y` and `coef` at the
addresses 0, 1 and 2, with the mark right above them. -/
def callerMem (x y coef : List Int) : Machine Int where
  mem := fun a => if a = 0 then .dbl x else if a = 1 then .dbl y else if a = 2 then .dbl coef
    else .dbl []
  vmax := 3
  trace := []

/-! ## The apply path: `qr_coef_real` -/

/-- The payload of an R vector: a `REALSXP`, or a numeric vector of another
type (integer, logical), whose elements are kept as integers. -/
inductive SData (α : Type) where
  | real (v : List α)
  | other (v : List Int)
  deriving DecidableEq, Repr

/-- An R object: its payload and its `dim` attribute (`[]` when absent). -/
structure SObj (α : Type) where
  data : SData α
  dim : List Int
  deriving DecidableEq, Repr

/-- What the apply path does that a caller could observe: the copy it makes
and the calls of the LAPACK routines, with the addresses of the objects
whose buffers are handed over and the diagnostic code that came back. -/
inductive LEvent where
  | copy (src : Nat) (dst : Nat)
  | dormqr (a : Nat) (tau : Nat) (c : Nat) (lwork : Int) (info : Int)
  | dtrtrs (a : Nat) (b : Nat) (info : Int)
  deriving DecidableEq, Repr

/-- The R heap: objects addressed by natural numbers; every address below
`next` is an existing object, a new object gets the address `next`. -/
structure RHeap (α : Type) where
  obj : Nat → SObj α
  next : Nat
  trace : List LEvent

/-- The factorization `Q`, an R list: element 0 is `qr$qr`, element 1 the
rank, element 2 `qr$qraux`, element 3 the pivot vector (spec section 3). -/
structure Factorization where
  qr : Nat
  rank : Nat
  qraux : Nat
  pivot : Nat
  deriving DecidableEq, Repr

/-- What `dormqr` leaves behind: `c` and `work` are overwritten, `info` is
set. The arguments `a` and `tau` are inputs (spec section 6: the transform is
applied to the target matrix in place). -/
structure DormqrOut (α : Type) where
  c : List α
  work : List α
  info : Int

/-- What `dtrtrs` leaves behind: `b` is overwritten, `info` is set. -/
structure DtrtrsOut (α : Type) where
  b : List α
  info : Int

/-- The environment of the apply path: the LAPACK routines, the conversion
of an integer element to a double (`coerceVector`), the conversion `(int)`
of a double, and the (unspecified) content of fresh memory. -/
structure Lapack (α : Type) where
  uninit : α
  toReal : Int → α
  toInt : α → Int
  /-- The call `dormqr(side, trans, m, n, k, a, lda, tau, c, ldc, work, lwork, info)`. -/
  dormqr : String → String → Int → Int → Int → List α → Int → List α → List α → Int →
    List α → Int → DormqrOut α
  /-- The call `dtrtrs(uplo, trans, diag, n, nrhs, a, lda, b, ldb, info)`. -/
  dtrtrs : String → String → String → Int → Int → List α → Int → List α → Int → DtrtrsOut α

/-- The test `isReal`. -/
def isReal {α : Type} (o : SObj α) : Bool :=
  match o.data with
  | .real _ => true
  | .other _ => false

/-- The test `isMatrix`: a vector whose `dim` attribute has length 2. -/
def isMatrix {α : Type} (o : SObj α) : Bool := o.dim.length == 2

/-- The macro `LENGTH`. -/
def LENGTH {α : Type} (d : SData α) : Nat :=
  match d with
  | .real v => v.length
  | .other v => v.length

/-- The doubles of a payload after coercion to `REALSXP`. -/
def SData.toReals {α : Type} (toReal : Int → α) (d : SData α) : List α :=
  match d with
  | .real v => v
  | .other v => v.map toReal

/-- The accessor `REAL`: the buffer of a `REALSXP` (`[]` for another type). -/
def REAL {α : Type} (o : SObj α) : List α :=
  match o.data with
  | .real v => v
  | .other _ => []

/-- The accessor `VECTOR_ELT` on a factorization. -/
def VECTOR_ELT (Q : Factorization) (i : Nat) : Nat :=
  match i with
  | 0 => Q.qr
  | 1 => Q.rank
  | 2 => Q.qraux
  | _ => Q.pivot

/-- The call `duplicate(s)`: a new object, a copy of the object `s`. -/
def duplicate {α : Type} (src : Nat) (h : RHeap α) : Nat × RHeap α :=
  (h.next,
   { obj := Function.update h.obj h.next (h.obj src),
     next := h.next + 1,
     trace := h.trace ++ [.copy src h.next] })

/-- The call `coerceVector(s, REALSXP)` on a numeric vector that is not a
`REALSXP`: a new object with the converted elements and the attributes of
`s`. -/
def coerceVector {α : Type} (L : Lapack α) (src : Nat) (h : RHeap α) : Nat × RHeap α :=
  (h.next,
   { obj := Function.update h.obj h.next
       { data := .real ((h.obj src).data.toReals L.toReal), dim := (h.obj src).dim },
     next := h.next + 1,
     trace := h.trace ++ [.copy src h.next] })

/-- The ints `INTEGER(coerceVector(getAttrib(s, R_DimSymbol), INTSXP))[i]`:
entry `i` of the `dim` attribute. -/
def dimAt {α : Type} (h : RHeap α) (s : Nat) (i : Nat) : Int := (h.obj s).dim.getD i 0

/-- Overwrite the buffer of the object at an address, keeping its
attributes. -/
def RHeap.setReal {α : Type} (h : RHeap α) (a : Nat) (v : List α) : RHeap α :=
  { h with obj := Function.update h.obj a { h.obj a with data := .real v } }

/-- A call of `dormqr` on the buffers of the objects `a`, `tau` and `c` with
the workspace `work`: the buffer of `c` is overwritten; the new workspace
and the diagnostic code are returned. -/
def call_dormqr {α : Type} (L : Lapack α) (side trans : String) (m n k : Int) (a : Nat)
    (lda : Int) (tau c : Nat) (ldc : Int) (work : List α) (lwork : Int) (h : RHeap α) :
    (List α × Int) × RHeap α :=
  let r := L.dormqr side trans m n k (REAL (h.obj a)) lda (REAL (h.obj tau)) (REAL (h.obj c))
    ldc work lwork
  ((r.work, r.info),
   { (h.setReal c r.c) with trace := h.trace ++ [.dormqr a tau c lwork r.info] })

/-- A call of `dtrtrs` on the buffers of the objects `a` and `b`: the buffer
of `b` is overwritten; the diagnostic code is returned. -/
def call_dtrtrs {α : Type} (L : Lapack α) (uplo trans diag : String) (n nrhs : Int) (a : Nat)
    (lda : Int) (b : Nat) (ldb : Int) (h : RHeap α) : Int × RHeap α :=
  let r := L.dtrtrs uplo trans diag n nrhs (REAL (h.obj a)) lda (REAL (h.obj b)) ldb
  (r.info, { (h.setReal b r.b) with trace := h.trace ++ [.dtrtrs a b r.info] })

/-- How a call of the apply path ends: with the address of the result or
with an error; in both cases in a heap. -/
structure CoefExit (α : Type) where
  result : Except RError Nat
  state : RHeap α

/-- Lines 16-37 of `qr_coef_real`: the workspace probe, the allocation of
the workspace, the application of the orthogonal transform and the
triangular solve, each followed by the check of `info`. -/
def qr_coef_lapack {α : Type} (L : Lapack α) (qr tau B : Nat) (n nrhs k : Int) (h1 : RHeap α) :
    CoefExit α :=
  let lwork : Int := -1
  let tmp := L.uninit
  let c1 := call_dormqr L "L" "T" n nrhs k qr n tau B n [tmp] lwork h1
  if c1.1.2 ≠ 0 then
    ⟨.error (.error "error code %d from Lapack routine '%s'"
      [.int c1.1.2, .str "dormqr [tmp]"]), c1.2⟩ else
  let tmp := c1.1.1.getD 0 L.uninit
  let lwork := L.toInt tmp
  let work := List.replicate lwork.toNat L.uninit
  let c2 := call_dormqr L "L" "T" n nrhs k qr n tau B n work lwork c1.2
  if c2.1.2 ≠ 0 then
    ⟨.error (.error "error code %d from Lapack routine '%s'"
      [.int c2.1.2, .str "dormqr [work]"]), c2.2⟩ else
  let c3 := call_dtrtrs L "U" "N" "N" k nrhs qr n B n c2.2
  if c3.1 ≠ 0 then
    ⟨.error (.error "error code %d from Lapack routine '%s'"
      [.int c3.1, .str "dtrtrs"]), c3.2⟩ else
  ⟨.ok B, c3.2⟩

/-- The source function `qr_coef_real` (src/qr/Lapack-specific.c, lines
4-38), statement by statement; lines 16-37 are `qr_coef_lapack`. `Bin` is a
numeric vector, so that its coercion to `REALSXP` succeeds; `PROTECT` and
`UNPROTECT` only concern the garbage collector and leave no mark here;
`error` does not return. -/
def qr_coef_real {α : Type} (L : Lapack α) (Q : Factorization) (Bin : Nat) (h0 : RHeap α) :
    CoefExit α :=
  if !isMatrix (h0.obj Bin) then
    ⟨.error (.error "'%s' must be a numeric matrix" [.str "b"]), h0⟩ else
  let d := if isReal (h0.obj Bin) then duplicate Bin h0 else coerceVector L Bin h0
  let B := d.1
  let h1 := d.2
  let qr := VECTOR_ELT Q 0
  let tau := VECTOR_ELT Q 2
  let k : Int := LENGTH (h1.obj tau).data
  let n := dimAt h1 qr 0
  let Bdims0 := dimAt h1 B 0
  let Bdims1 := dimAt h1 B 1
  if Bdims0 ≠ n then
    ⟨.error (.error "right-hand side should have %d not %d rows" [.int n, .int Bdims0]), h1⟩ else
  let nrhs := Bdims1
  qr_coef_lapack L qr tau B n nrhs k h1

/-- The heap after line 6 of `qr_coef_real`: `Bin` has been duplicated, or
coerced to a new `REALSXP`, at the address `h.next` (shown to be the heap of
the call by `qr_coef_real_eq`). -/
def copyHeap {α : Type} (L : Lapack α) (Bin : Nat) (h : RHeap α) : RHeap α :=
  (if isReal (h.obj Bin) then duplicate Bin h else coerceVector L Bin h).2

/-- The diagnostic codes of the LAPACK calls recorded in a trace, each with
the name of the routine. -/
def lapackInfos (t : List LEvent) : List (String × Int) :=
  t.filterMap (fun e => match e with
    | .dormqr _ _ _ _ i => some ("dormqr", i)
    | .dtrtrs _ _ i => some ("dtrtrs", i)
    | .copy _ _ => none)

/-- The addresses of the objects whose buffers the LAPACK calls of a trace
overwrite. -/
def lapackTargets (t : List LEvent) : List Nat :=
  t.filterMap (fun e => match e with
    | .dormqr _ _ c _ _ => some c
    | .dtrtrs _ b _ => some b
    | .copy _ _ => none)

/-- Scripted LAPACK routines over the integers, for evaluating the apply
path on concrete inputs: the probe (`lwork = -1`) reports the workspace size
4 and the code `i1`; the apply negates the target and reports `i2`; the
solve adds one to every element of the target and reports `i3`. -/
def scriptedLapack (i1 i2 i3 : Int) : Lapack Int where
  uninit := 77
  toReal := fun i => i
  toInt := fun x => x
  dormqr := fun _ _ _ _ _ _ _ _ c _ work lwork =>
    if lwork = -1 then { c := c, work := work.map (fun _ => 4), info := i1 }
    else { c := c.map (fun x => -x), work := work, info := i2 }
  dtrtrs := fun _ _ _ _ _ _ _ b _ => { b := b.map (fun x => x + 1), info := i3 }

/-- A heap with a factorization of a 3x2 matrix at the addresses 0 (`qr`)
and 1 (`qraux`) and a right-hand side `b` with the given `dim` at address 2. -/
def callerHeap (b : SData Int) (dim : List Int) : RHeap Int where
  obj := fun a =>
    if a = 0 then { data := .real [1, 2, 3, 4, 5, 6], dim := [3, 2] }
    else if a = 1 then { data := .real [7, 8], dim := [] }
    else if a = 2 then { data := b, dim := dim }
    else { data := .other [], dim := [] }
  next := 3
  trace := []

/-- The factorization stored in `callerHeap`. -/
def callerQ : Factorization := { qr := 0, rank := 9, qraux := 1, pivot := 9 }

/-! ## The deviance residuals of the GLM families -/

/-- The floating-point environment of the family functions: the operations
on doubles that the C code uses, the constants `0`, `1` and `2`, the test
`x == 0.0`, the conversion of an integer element to a double
(`coerceVector`) and the (unspecified) value of a read outside a buffer. -/
structure Arith (α : Type) where
  add : α → α → α
  sub : α → α → α
  mul : α → α → α
  div : α → α → α
  log : α → α
  zero : α
  one : α
  two : α
  isZero : α → Bool
  toReal : Int → α
  junk : α

/-- The three argument vectors of a deviance-residual function. -/
inductive Buf where
  | y
  | mu
  | wt
  deriving DecidableEq, Repr

/-- A read of element `idx` of an argument vector. -/
structure Read where
  buf : Buf
  idx : Nat
  deriving DecidableEq, Repr

/-- The result of a deviance-residual function, with the reads of the
argument vectors that the call made, in order. -/
structure DevOut (α : Type) where
  result : Except RError (List α)
  reads : List Read

/-- The read `v[i]` of a C array. -/
def rd {α : Type} (A : Arith α) (v : List α) (i : Nat) : α := v.getD i A.junk

/-- The right-hand side of line 56 of gaussian.c:
`rwt * (yi - mui) * (yi - mui)`. -/
def gaussian_term {α : Type} (A : Arith α) (w yi mui : α) : α :=
  A.mul (A.mul w (A.sub yi mui)) (A.sub yi mui)

/-- Lines 118-123 of poisson.c: `2.0 * rwt * mui` when `yi == 0.0`, and
`2.0 * rwt * (yi * log(yi/mui) - (yi - mui))` otherwise. -/
def poisson_term {α : Type} (A : Arith α) (w yi mui : α) : α :=
  if A.isZero yi then A.mul (A.mul A.two w) mui
  else A.mul (A.mul A.two w) (A.sub (A.mul yi (A.log (A.div yi mui))) (A.sub yi mui))

/-- The inline function `y_log_y` of binomial.c:
`(y != 0.) ? (y * log(y/mu)) : 0`. -/
def y_log_y {α : Type} (A : Arith α) (y mu : α) : α :=
  if !A.isZero y then A.mul y (A.log (A.div y mu)) else A.zero

/-- The right-hand side of lines 55-56 and of lines 62-63 of binomial.c:
`2 * rwt * (y_log_y(yi, mui) + y_log_y(1 - yi, 1 - mui))`. -/
def binomial_term {α : Type} (A : Arith α) (w yi mui : α) : α :=
  A.mul (A.mul A.two w) (A.add (y_log_y A yi mui) (y_log_y A (A.sub A.one yi) (A.sub A.one mui)))

/-- The message of the two length checks. -/
def lengthError (name : String) (n : Nat) : RError :=
  .error "argument %s must be a numeric vector of length 1 or length %d" [.str name, .int n]

/-- The source function `gaussian_dev_resids` (gaussian.c, lines 32-61).
The vectors are coerced to `REALSXP` when they are not; `ans` starts as a
copy of `y`; the loop writes `rans[i]` for `i = 0, ..., n-1`. -/
def gaussian_dev_resids {α : Type} (A : Arith α) (y mu wt : SData α) : DevOut α :=
  let n := LENGTH y
  let lmu := LENGTH mu
  let lwt := LENGTH wt
  let ry := y.toReals A.toReal
  let rans := ry
  let rmu := mu.toReals A.toReal
  let rwt := wt.toReals A.toReal
  if lmu ≠ n ∧ lmu ≠ 1 then ⟨.error (lengthError "mu" n), []⟩ else
  if lwt ≠ n ∧ lwt ≠ 1 then ⟨.error (lengthError "wt" n), []⟩ else
  let st := (List.range n).foldl (fun (st : List α × List Read) i =>
    let mui := rd A rmu (if lmu > 1 then i else 0)
    let yi := rd A ry i
    (st.1.set i (gaussian_term A (rd A rwt (if lwt > 1 then i else 0)) yi mui),
     st.2 ++ [⟨.mu, if lmu > 1 then i else 0⟩, ⟨.y, i⟩, ⟨.wt, if lwt > 1 then i else 0⟩]))
    (rans, [])
  ⟨.ok st.1, st.2⟩

/-- The source function `poisson_dev_resids` (poisson.c, lines 32-66). -/
def poisson_dev_resids {α : Type} (A : Arith α) (y mu wt : SData α) : DevOut α :=
  let n := LENGTH y
  let lmu := LENGTH mu
  let lwt := LENGTH wt
  let ry := y.toReals A.toReal
  let rans := ry
  let rmu := mu.toReals A.toReal
  let rwt := wt.toReals A.toReal
  if lmu ≠ n ∧ lmu ≠ 1 then ⟨.error (lengthError "mu" n), []⟩ else
  if lwt ≠ n ∧ lwt ≠ 1 then ⟨.error (lengthError "wt" n), []⟩ else
  let st := (List.range n).foldl (fun (st : List α × List Read) i =>
    let mui := rd A rmu (if lmu > 1 then i else 0)
    let yi := rd A ry i
    (st.1.set i (poisson_term A (rd A rwt (if lwt > 1 then i else 0)) yi mui),
     st.2 ++ [⟨.mu, if lmu > 1 then i else 0⟩, ⟨.y, i⟩, ⟨.wt, if lwt > 1 then i else 0⟩]))
    (rans, [])
  ⟨.ok st.1, st.2⟩

/-- The source function `binomial_dev_resids` (binomial.c, lines 39-78).
The case `lmu > 1` and the case `lmu <= 1` are two separate loops; in the
second `mui = rmu[0]` is read once, before the loop. -/
def binomial_dev_resids {α : Type} (A : Arith α) (y mu wt : SData α) : DevOut α :=
  let n := LENGTH y
  let lmu := LENGTH mu
  let lwt := LENGTH wt
  let ry := y.toReals A.toReal
  let rans := ry
  let rmu := mu.toReals A.toReal
  let rwt := wt.toReals A.toReal
  if lmu ≠ n ∧ lmu ≠ 1 then ⟨.error (lengthError "mu" n), []⟩ else
  if lwt ≠ n ∧ lwt ≠ 1 then ⟨.error (lengthError "wt" n), []⟩ else
  if lmu > 1 then
    let st := (List.range n).foldl (fun (st : List α × List Read) i =>
      let mui := rd A rmu i
      let yi := rd A ry i
      (st.1.set i (binomial_term A (rd A rwt (if lwt > 1 then i else 0)) yi mui),
       st.2 ++ [⟨.mu, i⟩, ⟨.y, i⟩, ⟨.wt, if lwt > 1 then i else 0⟩]))
      (rans, [])
    ⟨.ok st.1, st.2⟩
  else
    let mui := rd A rmu 0
    let st := (List.range n).foldl (fun (st : List α × List Read) i =>
      let yi := rd A ry i
      (st.1.set i (binomial_term A (rd A rwt (if lwt > 1 then i else 0)) yi mui),
       st.2 ++ [⟨.y, i⟩, ⟨.wt, if lwt > 1 then i else 0⟩]))
      (rans, [⟨.mu, 0⟩])
    ⟨.ok st.1, st.2⟩

/-- The length of the argument vector that a read refers to. -/
def bufLength {α : Type} (y mu wt : SData α) (b : Buf) : Nat :=
  match b with
  | .y => LENGTH y
  | .mu => LENGTH mu
  | .wt => LENGTH wt

/-- Integer arithmetic standing in for the doubles, for evaluating the
family functions on concrete inputs (`log` is the identity, `div` the
integer division). -/
def intArith : Arith Int where
  add := fun a b => a + b
  sub := fun a b => a - b
  mul := fun a b => a * b
  div := fun a b => a / b
  log := fun a => a
  zero := 0
  one := 1
  two := 2
  isZero := fun a => a == 0
  toReal := fun i => i
  junk := -99

/-! ## Lemmas on the operations of the machine -/

section ops
variable {α : Type}

@[simp] theorem store_vmax (s : Machine α) (a : Nat) (c : Cell α) :
    (s.store a c).vmax = s.vmax := rfl

@[simp] theorem store_trace (s : Machine α) (a : Nat) (c : Cell α) :
    (s.store a c).trace = s.trace := rfl

@[simp] theorem store_mem_self (s : Machine α) (a : Nat) (c : Cell α) :
    (s.store a c).mem a = c := by
  simp [Machine.store]

theorem store_mem_ne (s : Machine α) (a b : Nat) (c : Cell α) (h : b ≠ a) :
    (s.store a c).mem b = s.mem b := by
  simp [Machine.store, Function.update_noteq h]

@[simp] theorem emit_vmax (s : Machine α) (e : Event) : (s.emit e).vmax = s.vmax := rfl

@[simp] theorem emit_trace (s : Machine α) (e : Event) :
    (s.emit e).trace = s.trace ++ [e] := rfl

@[simp] theorem emit_mem (s : Machine α) (e : Event) : (s.emit e).mem = s.mem := rfl

theorem dbls_congr (s t : Machine α) (a b : Nat) (h : s.mem a = t.mem b) :
    s.dbls a = t.dbls b := by
  simp [Machine.dbls, h]

theorem ints_congr (s t : Machine α) (a b : Nat) (h : s.mem a = t.mem b) :
    s.ints a = t.ints b := by
  simp [Machine.ints, h]

theorem dbls_of_mem (s : Machine α) (a : Nat) (v : List α) (h : s.mem a = .dbl v) :
    s.dbls a = v := by
  simp [Machine.dbls, h]

@[simp] theorem R_alloc_double_fst (P : Prims α) (n : Nat) (s : Machine α) :
    (R_alloc_double P n s).1 = s.vmax := rfl

@[simp] theorem R_alloc_double_vmax (P : Prims α) (n : Nat) (s : Machine α) :
    (R_alloc_double P n s).2.vmax = s.vmax + 1 := rfl

@[simp] theorem R_alloc_double_trace (P : Prims α) (n : Nat) (s : Machine α) :
    (R_alloc_double P n s).2.trace = s.trace ++ [.alloc s.vmax n] := rfl

theorem R_alloc_double_mem (P : Prims α) (n : Nat) (s : Machine α) (a : Nat)
    (h : a ≠ s.vmax) : (R_alloc_double P n s).2.mem a = s.mem a := by
  simp [R_alloc_double, Function.update_noteq h]

@[simp] theorem R_alloc_int_fst (P : Prims α) (n : Nat) (s : Machine α) :
    (R_alloc_int P n s).1 = s.vmax := rfl

@[simp] theorem R_alloc_int_vmax (P : Prims α) (n : Nat) (s : Machine α) :
    (R_alloc_int P n s).2.vmax = s.vmax + 1 := rfl

@[simp] theorem R_alloc_int_trace (P : Prims α) (n : Nat) (s : Machine α) :
    (R_alloc_int P n s).2.trace = s.trace ++ [.alloc s.vmax n] := rfl

theorem R_alloc_int_mem (P : Prims α) (n : Nat) (s : Machine α) (a : Nat)
    (h : a ≠ s.vmax) : (R_alloc_int P n s).2.mem a = s.mem a := by
  simp [R_alloc_int, Function.update_noteq h]

@[simp] theorem make_zero_matrix_fst (P : Prims α) (r c : Nat) (s : Machine α) :
    (make_zero_matrix P r c s).1 = ⟨s.vmax, r, c⟩ := rfl

@[simp] theorem make_zero_matrix_vmax (P : Prims α) (r c : Nat) (s : Machine α) :
    (make_zero_matrix P r c s).2.vmax = s.vmax + 1 := rfl

@[simp] theorem make_zero_matrix_trace (P : Prims α) (r c : Nat) (s : Machine α) :
    (make_zero_matrix P r c s).2.trace = s.trace ++ [.alloc s.vmax (r * c)] := rfl

theorem make_zero_matrix_mem (P : Prims α) (r c : Nat) (s : Machine α) (a : Nat)
    (h : a ≠ s.vmax) : (make_zero_matrix P r c s).2.mem a = s.mem a := by
  simp [make_zero_matrix, Function.update_noteq h]

@[simp] theorem transpose_matrix_vmax (P : Prims α) (m a : Array) (s : Machine α) :
    (transpose_matrix P m a s).vmax = s.vmax := rfl

@[simp] theorem transpose_matrix_trace (P : Prims α) (m a : Array) (s : Machine α) :
    (transpose_matrix P m a s).trace = s.trace ++ [.transpose m.vec a.vec] := rfl

theorem transpose_matrix_mem (P : Prims α) (m a : Array) (s : Machine α) (b : Nat)
    (h : b ≠ a.vec) : (transpose_matrix P m a s).mem b = s.mem b := by
  simp [transpose_matrix, Function.update_noteq h]

@[simp] theorem transpose_matrix_mem_self (P : Prims α) (m a : Array) (s : Machine α) :
    (transpose_matrix P m a s).mem a.vec
      = .dbl (transposeData P.zero (s.dbls m.vec) (NROW m) (NCOL m)) := by
  simp [transpose_matrix]

@[simp] theorem setPivot_vmax (pivot : Nat) (s : Machine α) (i : Nat) :
    (setPivot pivot s i).vmax = s.vmax := rfl

@[simp] theorem setPivot_trace (pivot : Nat) (s : Machine α) (i : Nat) :
    (setPivot pivot s i).trace = s.trace := rfl

theorem setPivot_mem (pivot : Nat) (s : Machine α) (i a : Nat) (h : a ≠ pivot) :
    (setPivot pivot s i).mem a = s.mem a := by
  simp [setPivot, Machine.store, Function.update_noteq h]

@[simp] theorem pivotLoop_vmax (pivot : Nat) (l : List Nat) (s : Machine α) :
    (l.foldl (setPivot pivot) s).vmax = s.vmax := by
  induction l generalizing s with
  | nil => rfl
  | cons i l ih => rw [List.foldl_cons, ih, setPivot_vmax]

@[simp] theorem pivotLoop_trace (pivot : Nat) (l : List Nat) (s : Machine α) :
    (l.foldl (setPivot pivot) s).trace = s.trace := by
  induction l generalizing s with
  | nil => rfl
  | cons i l ih => rw [List.foldl_cons, ih, setPivot_trace]

theorem pivotLoop_mem (pivot : Nat) (l : List Nat) (s : Machine α) (a : Nat)
    (h : a ≠ pivot) : (l.foldl (setPivot pivot) s).mem a = s.mem a := by
  induction l generalizing s with
  | nil => rfl
  | cons i l ih => rw [List.foldl_cons, ih, setPivot_mem pivot s i a h]

@[simp] theorem call_dqrdc2_vmax (P : Prims α) (x ldx n p q pv w : Nat) (s : Machine α) :
    (call_dqrdc2 P x ldx n p q pv w s).2.vmax = s.vmax := rfl

@[simp] theorem call_dqrdc2_trace (P : Prims α) (x ldx n p q pv w : Nat) (s : Machine α) :
    (call_dqrdc2 P x ldx n p q pv w s).2.trace
      = s.trace ++ [.dqrdc2 x q pv w (call_dqrdc2 P x ldx n p q pv w s).1] := rfl

theorem call_dqrdc2_mem (P : Prims α) (x ldx n p q pv w : Nat) (s : Machine α) (a : Nat)
    (hx : a ≠ x) (hq : a ≠ q) (hpv : a ≠ pv) (hw : a ≠ w) :
    (call_dqrdc2 P x ldx n p q pv w s).2.mem a = s.mem a := by
  simp [call_dqrdc2, store_mem_ne, hx, hq, hpv, hw]

@[simp] theorem call_dqrcf_vmax (P : Prims α) (x n : Nat) (k : Int) (q y ny b : Nat) (i : Int)
    (s : Machine α) : (call_dqrcf P x n k q y ny b i s).2.vmax = s.vmax := rfl

@[simp] theorem call_dqrcf_trace (P : Prims α) (x n : Nat) (k : Int) (q y ny b : Nat) (i : Int)
    (s : Machine α) :
    (call_dqrcf P x n k q y ny b i s).2.trace
      = s.trace ++ [.dqrcf x q y b (call_dqrcf P x n k q y ny b i s).1] := rfl

theorem call_dqrcf_mem (P : Prims α) (x n : Nat) (k : Int) (q y ny b : Nat) (i : Int)
    (s : Machine α) (a : Nat) (hx : a ≠ x) (hq : a ≠ q) (hy : a ≠ y) (hb : a ≠ b) :
    (call_dqrcf P x n k q y ny b i s).2.mem a = s.mem a := by
  simp [call_dqrcf, store_mem_ne, hx, hq, hy, hb]

end ops

/-! ## Lemmas on the layout conversion -/

theorem transposeData_length {α : Type} (d : α) (src : List α) (r c : Nat) :
    (transposeData d src r c).length = c * r := by
  simp [transposeData]

theorem transposeData_get {α : Type} (d : α) (src : List α) (r c i j : Nat)
    (hi : i < r) (hj : j < c) :
    (transposeData d src r c)[j * r + i]? = some (src.getD (i * c + j) d) := by
  have hk : j * r + i < c * r := by
    calc j * r + i < j * r + r := by omega
      _ = (j + 1) * r := by ring
      _ ≤ c * r := Nat.mul_le_mul_right r (by omega)
  have hr : 0 < r := by omega
  have h1 : (j * r + i) % r = i := by
    rw [Nat.add_comm, Nat.add_mul_mod_self_right, Nat.mod_eq_of_lt hi]
  have h2 : (j * r + i) / r = j := by
    rw [Nat.add_comm, Nat.add_mul_div_right _ _ hr, Nat.div_eq_of_lt hi, Nat.zero_add]
  simp [transposeData, List.getElem?_map, List.getElem?_range hk, h1, h2]

/-- Transposing a row-major buffer yields the column-major buffer of the
same matrix. -/
theorem transposeData_colMajor {α : Type} (d : α) (src : List α) (r c : Nat)
    (M : Nat → Nat → α) (h : RowMajor src r c M) :
    ColMajor (transposeData d src r c) r c M := by
  refine ⟨by rw [transposeData_length, Nat.mul_comm], ?_⟩
  intro i hi j hj
  rw [transposeData_get d src r c i j hi hj, List.getD_eq_getElem?_getD, h.2 i hi j hj]
  rfl

/-- Transposing a column-major buffer yields the row-major buffer of the
same matrix. -/
theorem transposeData_rowMajor {α : Type} (d : α) (src : List α) (r c : Nat)
    (M : Nat → Nat → α) (h : ColMajor src r c M) :
    RowMajor (transposeData d src c r) r c M := by
  refine ⟨transposeData_length d src c r, ?_⟩
  intro i hi j hj
  rw [transposeData_get d src c r j i hj hi, List.getD_eq_getElem?_getD, h.2 i hi j hj]
  rfl

/-! ## Lemmas on the two stages of `qr_solve` -/

section stages
variable {α : Type}

@[simp] theorem qr_scratch_vmax (P : Prims α) (x : Array) (s : Machine α) :
    (qr_scratch P x s).vmax = s.vmax := rfl

@[simp] theorem qr_scratch_qraux (P : Prims α) (x : Array) (s : Machine α) :
    (qr_scratch P x s).qraux = s.vmax := rfl

@[simp] theorem qr_scratch_pivot (P : Prims α) (x : Array) (s : Machine α) :
    (qr_scratch P x s).pivot = s.vmax + 1 := rfl

@[simp] theorem qr_scratch_work (P : Prims α) (x : Array) (s : Machine α) :
    (qr_scratch P x s).work = s.vmax + 2 := rfl

@[simp] theorem qr_scratch_xt (P : Prims α) (x : Array) (s : Machine α) :
    (qr_scratch P x s).xt = ⟨s.vmax + 3, NCOL x, NROW x⟩ := by
  simp [qr_scratch]

@[simp] theorem qr_scratch_state_vmax (P : Prims α) (x : Array) (s : Machine α) :
    (qr_scratch P x s).state.vmax = s.vmax + 4 := by
  simp [qr_scratch]

theorem qr_scratch_trace (P : Prims α) (x : Array) (s : Machine α) :
    (qr_scratch P x s).state.trace = s.trace ++
      [.alloc s.vmax (NCOL x), .alloc (s.vmax + 1) (NCOL x), .alloc (s.vmax + 2) (2 * NCOL x),
       .alloc (s.vmax + 3) (NCOL x * NROW x), .transpose x.vec (s.vmax + 3)] := by
  simp [qr_scratch]

theorem qr_scratch_mem (P : Prims α) (x : Array) (s : Machine α) (a : Nat) (h : a < s.vmax) :
    (qr_scratch P x s).state.mem a = s.mem a := by
  unfold qr_scratch
  simp only [R_alloc_double_fst, R_alloc_int_fst, make_zero_matrix_fst,
    R_alloc_double_vmax, R_alloc_int_vmax, pivotLoop_vmax]
  rw [transpose_matrix_mem _ _ _ _ _ (by simp; omega),
    make_zero_matrix_mem _ _ _ _ _ (by simp; omega),
    pivotLoop_mem _ _ _ _ (by omega),
    R_alloc_double_mem _ _ _ _ (by simp; omega),
    R_alloc_int_mem _ _ _ _ (by simp; omega),
    R_alloc_double_mem _ _ _ _ (by omega)]

/-- After `qr_scratch` the buffer of `xt` holds the transposed data of `x`. -/
theorem qr_scratch_xt_data (P : Prims α) (x : Array) (s : Machine α) (hx : x.vec < s.vmax) :
    (qr_scratch P x s).state.dbls (s.vmax + 3)
      = transposeData P.zero (s.dbls x.vec) (NROW x) (NCOL x) := by
  have hsrc : (make_zero_matrix P (NCOL x) (NROW x)
      (List.foldl (setPivot (R_alloc_int P (NCOL x) (R_alloc_double P (NCOL x) s).2).1)
        (R_alloc_double P (2 * NCOL x) (R_alloc_int P (NCOL x)
          (R_alloc_double P (NCOL x) s).2).2).2 (List.range (NCOL x)))).2.dbls x.vec
      = s.dbls x.vec := by
    apply dbls_congr
    rw [make_zero_matrix_mem _ _ _ _ _ (by simp; omega),
      pivotLoop_mem _ _ _ _ (by simp; omega),
      R_alloc_double_mem _ _ _ _ (by simp; omega),
      R_alloc_int_mem _ _ _ _ (by simp; omega),
      R_alloc_double_mem _ _ _ _ (by omega)]
  apply dbls_of_mem
  unfold qr_scratch
  simp only [R_alloc_double_fst, R_alloc_int_fst, make_zero_matrix_fst,
    R_alloc_double_vmax, R_alloc_int_vmax, pivotLoop_vmax]
  have h := transpose_matrix_mem_self P x ⟨s.vmax + 1 + 1 + 1, NCOL x, NROW x⟩
    (make_zero_matrix P (NCOL x) (NROW x)
      (List.foldl (setPivot (R_alloc_int P (NCOL x) (R_alloc_double P (NCOL x) s).2).1)
        (R_alloc_double P (2 * NCOL x) (R_alloc_int P (NCOL x)
          (R_alloc_double P (NCOL x) s).2).2).2 (List.range (NCOL x)))).2
  rw [hsrc] at h
  exact h

@[simp] theorem qr_factor_vmax (P : Prims α) (x : Array) (s : Machine α) :
    (qr_factor P x s).vmax = s.vmax := rfl

@[simp] theorem qr_factor_qraux (P : Prims α) (x : Array) (s : Machine α) :
    (qr_factor P x s).qraux = s.vmax := rfl

@[simp] theorem qr_factor_pivot (P : Prims α) (x : Array) (s : Machine α) :
    (qr_factor P x s).pivot = s.vmax + 1 := rfl

@[simp] theorem qr_factor_work (P : Prims α) (x : Array) (s : Machine α) :
    (qr_factor P x s).work = s.vmax + 2 := rfl

@[simp] theorem qr_factor_xt (P : Prims α) (x : Array) (s : Machine α) :
    (qr_factor P x s).xt = ⟨s.vmax + 3, NCOL x, NROW x⟩ := by
  simp [qr_factor]

@[simp] theorem qr_factor_state_vmax (P : Prims α) (x : Array) (s : Machine α) :
    (qr_factor P x s).state.vmax = s.vmax + 4 := by
  simp [qr_factor]

theorem qr_factor_trace (P : Prims α) (x : Array) (s : Machine α) :
    (qr_factor P x s).state.trace = s.trace ++
      [.alloc s.vmax (NCOL x), .alloc (s.vmax + 1) (NCOL x), .alloc (s.vmax + 2) (2 * NCOL x),
       .alloc (s.vmax + 3) (NCOL x * NROW x), .transpose x.vec (s.vmax + 3),
       .dqrdc2 (s.vmax + 3) s.vmax (s.vmax + 1) (s.vmax + 2) (qr_factor P x s).rank] := by
  simp [qr_factor, VECTOR, qr_scratch_trace]

theorem qr_factor_mem (P : Prims α) (x : Array) (s : Machine α) (a : Nat) (h : a < s.vmax) :
    (qr_factor P x s).state.mem a = s.mem a := by
  unfold qr_factor
  simp only [VECTOR, qr_scratch_xt, qr_scratch_qraux, qr_scratch_pivot, qr_scratch_work]
  rw [call_dqrdc2_mem _ _ _ _ _ _ _ _ _ _ (by omega) (by omega) (by omega) (by omega),
    qr_scratch_mem P x s a h]

theorem qr_factor_rank (P : Prims α) (x : Array) (s : Machine α) (hx : x.vec < s.vmax) :
    (qr_factor P x s).rank = (factorOut P x s).rank := by
  unfold qr_factor call_dqrdc2 factorOut
  simp only [VECTOR, qr_scratch_xt, qr_scratch_qraux, qr_scratch_pivot, qr_scratch_work,
    qr_scratch_xt_data P x s hx]

theorem qr_factor_xt_data (P : Prims α) (x : Array) (s : Machine α) (hx : x.vec < s.vmax) :
    (qr_factor P x s).state.dbls (s.vmax + 3) = (factorOut P x s).x := by
  apply dbls_of_mem
  unfold qr_factor call_dqrdc2 factorOut
  simp only [VECTOR, qr_scratch_xt, qr_scratch_qraux, qr_scratch_pivot, qr_scratch_work,
    qr_scratch_xt_data P x s hx, emit_mem]
  rw [store_mem_ne _ _ _ _ (by omega), store_mem_ne _ _ _ _ (by omega),
    store_mem_ne _ _ _ _ (by omega), store_mem_self]

theorem qr_factor_qraux_data (P : Prims α) (x : Array) (s : Machine α) (hx : x.vec < s.vmax) :
    (qr_factor P x s).state.dbls s.vmax = (factorOut P x s).qraux := by
  apply dbls_of_mem
  unfold qr_factor call_dqrdc2 factorOut
  simp only [VECTOR, qr_scratch_xt, qr_scratch_qraux, qr_scratch_pivot, qr_scratch_work,
    qr_scratch_xt_data P x s hx, emit_mem]
  rw [store_mem_ne _ _ _ _ (by omega), store_mem_ne _ _ _ _ (by omega), store_mem_self]

@[simp] theorem qr_backsolve_coeft (P : Prims α) (x y coef : Array) (f : QrLocals α)
    (i : Int) :
    (qr_backsolve P x y coef f i).coeft = ⟨f.state.vmax + 1, NCOL coef, NROW coef⟩ := by
  simp [qr_backsolve]

@[simp] theorem qr_backsolve_state_vmax (P : Prims α) (x y coef : Array) (f : QrLocals α)
    (i : Int) : (qr_backsolve P x y coef f i).state.vmax = f.state.vmax + 2 := by
  simp [qr_backsolve]

theorem qr_backsolve_trace (P : Prims α) (x y coef : Array) (f : QrLocals α) (i : Int) :
    (qr_backsolve P x y coef f i).state.trace = f.state.trace ++
      [.alloc f.state.vmax (NCOL y * NROW y),
       .alloc (f.state.vmax + 1) (NCOL coef * NROW coef),
       .transpose y.vec f.state.vmax,
       .dqrcf f.xt.vec f.qraux f.state.vmax (f.state.vmax + 1)
         (qr_backsolve P x y coef f i).info] := by
  simp [qr_backsolve, VECTOR]

theorem qr_backsolve_mem (P : Prims α) (x y coef : Array) (f : QrLocals α) (i : Int) (a : Nat)
    (h1 : a ≠ f.state.vmax) (h2 : a ≠ f.state.vmax + 1) (h3 : a ≠ f.xt.vec)
    (h4 : a ≠ f.qraux) : (qr_backsolve P x y coef f i).state.mem a = f.state.mem a := by
  unfold qr_backsolve
  simp only [VECTOR, make_zero_matrix_fst, make_zero_matrix_vmax]
  rw [call_dqrcf_mem _ _ _ _ _ _ _ _ _ _ _ h3 h4 h1 h2,
    transpose_matrix_mem _ _ _ _ _ h1,
    make_zero_matrix_mem _ _ _ _ _ (by simpa using h2),
    make_zero_matrix_mem _ _ _ _ _ h1]

theorem qr_backsolve_args (P : Prims α) (x y coef : Array) (f : QrLocals α) (i : Int)
    (h1 : f.xt.vec < f.state.vmax) (h2 : f.qraux < f.state.vmax) (h3 : y.vec < f.state.vmax) :
    (qr_backsolve P x y coef f i).info = (backsolveOut P x y coef f i).info ∧
    (qr_backsolve P x y coef f i).state.dbls (f.state.vmax + 1)
      = (backsolveOut P x y coef f i).b := by
  have e1 : (transpose_matrix P y ⟨f.state.vmax, NCOL y, NROW y⟩
      (make_zero_matrix P (NCOL coef) (NROW coef)
        (make_zero_matrix P (NCOL y) (NROW y) f.state).2).2).dbls f.xt.vec
      = f.state.dbls f.xt.vec := by
    apply dbls_congr
    rw [transpose_matrix_mem _ _ _ _ _ (by simp; omega),
      make_zero_matrix_mem _ _ _ _ _ (by simp; omega),
      make_zero_matrix_mem _ _ _ _ _ (by omega)]
  have e2 : (transpose_matrix P y ⟨f.state.vmax, NCOL y, NROW y⟩
      (make_zero_matrix P (NCOL coef) (NROW coef)
        (make_zero_matrix P (NCOL y) (NROW y) f.state).2).2).dbls f.qraux
      = f.state.dbls f.qraux := by
    apply dbls_congr
    rw [transpose_matrix_mem _ _ _ _ _ (by simp; omega),
      make_zero_matrix_mem _ _ _ _ _ (by simp; omega),
      make_zero_matrix_mem _ _ _ _ _ (by omega)]
  have e0 : (make_zero_matrix P (NCOL coef) (NROW coef)
        (make_zero_matrix P (NCOL y) (NROW y) f.state).2).2.dbls y.vec
      = f.state.dbls y.vec := by
    apply dbls_congr
    rw [make_zero_matrix_mem _ _ _ _ _ (by simp; omega),
      make_zero_matrix_mem _ _ _ _ _ (by omega)]
  have e3 : (transpose_matrix P y ⟨f.state.vmax, NCOL y, NROW y⟩
      (make_zero_matrix P (NCOL coef) (NROW coef)
        (make_zero_matrix P (NCOL y) (NROW y) f.state).2).2).dbls f.state.vmax
      = transposeData P.zero (f.state.dbls y.vec) (NROW y) (NCOL y) := by
    apply dbls_of_mem
    have h := transpose_matrix_mem_self P y ⟨f.state.vmax, NCOL y, NROW y⟩
      (make_zero_matrix P (NCOL coef) (NROW coef)
        (make_zero_matrix P (NCOL y) (NROW y) f.state).2).2
    rw [e0] at h
    exact h
  have e4 : (transpose_matrix P y ⟨f.state.vmax, NCOL y, NROW y⟩
      (make_zero_matrix P (NCOL coef) (NROW coef)
        (make_zero_matrix P (NCOL y) (NROW y) f.state).2).2).dbls (f.state.vmax + 1)
      = List.replicate (NCOL coef * NROW coef) P.zero := by
    apply dbls_of_mem
    rw [transpose_matrix_mem _ _ _ _ _ (by simp)]
    simp [make_zero_matrix]
  constructor
  · unfold qr_backsolve call_dqrcf backsolveOut
    simp only [VECTOR, make_zero_matrix_fst, make_zero_matrix_vmax, e1, e2, e3, e4]
  · apply dbls_of_mem
    unfold qr_backsolve call_dqrcf backsolveOut
    simp only [VECTOR, make_zero_matrix_fst, make_zero_matrix_vmax, e1, e2, e3, e4, emit_mem,
      store_mem_self]
/-- With the three shape assertions passed, `qr_solve` is the rank check
followed by the back-solve, the final transpose and the release. -/
theorem qr_solve_eq (P : Prims α) (x y coef : Array) (s : Machine α)
    (h1 : NROW x = NROW y) (h2 : NCOL coef = NCOL y) (h3 : NCOL x = NROW coef) :
    qr_solve P x y coef s =
      if (qr_factor P x s).rank ≠ (NCOL x : Int) then
        ⟨.error (.error "Singular matrix in qr_solve" []), (qr_factor P x s).state⟩
      else
        ⟨.ok (), vmaxset s.vmax (transpose_matrix P
          (qr_backsolve P x y coef (qr_factor P x s) 0).coeft coef
          (qr_backsolve P x y coef (qr_factor P x s) 0).state)⟩ := by
  unfold qr_solve
  simp only [ne_eq, h1, h2, h3, not_true_eq_false, if_false, qr_factor_vmax]

/-- When an assertion fails the call ends in the state it started in. -/
theorem qr_solve_of_shape_fail (P : Prims α) (x y coef : Array) (s : Machine α)
    (h : ¬ (NROW x = NROW y ∧ NCOL coef = NCOL y ∧ NCOL x = NROW coef)) :
    (qr_solve P x y coef s).state = s ∧ ∃ e, (qr_solve P x y coef s).result = .error (.assertion e) := by
  unfold qr_solve
  by_cases h1 : NROW x = NROW y
  · by_cases h2 : NCOL coef = NCOL y
    · by_cases h3 : NCOL x = NROW coef
      · exact absurd ⟨h1, h2, h3⟩ h
      · simp [h1, h2, h3]
    · simp [h1, h2]
  · simp [h1]

/-- The memory below the entry mark after a normal return: only the buffer
of `coef` may differ. -/
theorem qr_solve_ok_mem (P : Prims α) (x y coef : Array) (s : Machine α) (a : Nat)
    (ha : a < s.vmax) (hac : a ≠ coef.vec) :
    (vmaxset s.vmax (transpose_matrix P
        (qr_backsolve P x y coef (qr_factor P x s) 0).coeft coef
        (qr_backsolve P x y coef (qr_factor P x s) 0).state)).mem a = s.mem a := by
  show (transpose_matrix P _ coef _).mem a = s.mem a
  rw [transpose_matrix_mem _ _ _ _ _ hac,
    qr_backsolve_mem _ _ _ _ _ _ _ (by simp; omega) (by simp; omega) (by simp; omega)
      (by simp; omega),
    qr_factor_mem P x s a ha]

/-- The events of a normal return. -/
theorem qr_solve_ok_trace (P : Prims α) (x y coef : Array) (s : Machine α) :
    (vmaxset s.vmax (transpose_matrix P
        (qr_backsolve P x y coef (qr_factor P x s) 0).coeft coef
        (qr_backsolve P x y coef (qr_factor P x s) 0).state)).trace = s.trace ++
      [.alloc s.vmax (NCOL x), .alloc (s.vmax + 1) (NCOL x), .alloc (s.vmax + 2) (2 * NCOL x),
       .alloc (s.vmax + 3) (NCOL x * NROW x), .transpose x.vec (s.vmax + 3),
       .dqrdc2 (s.vmax + 3) s.vmax (s.vmax + 1) (s.vmax + 2) (qr_factor P x s).rank,
       .alloc (s.vmax + 4) (NCOL y * NROW y),
       .alloc (s.vmax + 5) (NCOL coef * NROW coef),
       .transpose y.vec (s.vmax + 4),
       .dqrcf (s.vmax + 3) s.vmax (s.vmax + 4) (s.vmax + 5)
         (qr_backsolve P x y coef (qr_factor P x s) 0).info,
       .transpose (s.vmax + 5) coef.vec] := by
  show (transpose_matrix P _ coef _).trace = _
  simp [qr_backsolve_trace, qr_factor_trace]

end stages

/-! ## Lemmas on the apply path -/

section apply
variable {α : Type}

/-- The private copy `B` of `Bin` made at line 6. -/
theorem copy_fst (L : Lapack α) (Bin : Nat) (h : RHeap α) (c : Bool) :
    (if c then duplicate Bin h else coerceVector L Bin h).1 = h.next := by
  cases c <;> rfl

theorem copy_next (L : Lapack α) (Bin : Nat) (h : RHeap α) (c : Bool) :
    (if c then duplicate Bin h else coerceVector L Bin h).2.next = h.next + 1 := by
  cases c <;> rfl

theorem copy_trace (L : Lapack α) (Bin : Nat) (h : RHeap α) (c : Bool) :
    (if c then duplicate Bin h else coerceVector L Bin h).2.trace
      = h.trace ++ [.copy Bin h.next] := by
  cases c <;> rfl

theorem copy_obj (L : Lapack α) (Bin : Nat) (h : RHeap α) (c : Bool) (a : Nat)
    (ha : a ≠ h.next) :
    (if c then duplicate Bin h else coerceVector L Bin h).2.obj a = h.obj a := by
  cases c <;> simp [duplicate, coerceVector, Function.update_noteq ha]

theorem copy_dim (L : Lapack α) (Bin : Nat) (h : RHeap α) (c : Bool) :
    ((if c then duplicate Bin h else coerceVector L Bin h).2.obj h.next).dim
      = (h.obj Bin).dim := by
  cases c <;> simp [duplicate, coerceVector]

theorem call_dormqr_obj (L : Lapack α) (sd tr : String) (m n k : Int) (a : Nat) (lda : Int)
    (tau c : Nat) (ldc : Int) (w : List α) (lw : Int) (h : RHeap α) (b : Nat) (hb : b ≠ c) :
    (call_dormqr L sd tr m n k a lda tau c ldc w lw h).2.obj b = h.obj b := by
  simp [call_dormqr, RHeap.setReal, Function.update_noteq hb]

theorem call_dormqr_dim (L : Lapack α) (sd tr : String) (m n k : Int) (a : Nat) (lda : Int)
    (tau c : Nat) (ldc : Int) (w : List α) (lw : Int) (h : RHeap α) (b : Nat) :
    ((call_dormqr L sd tr m n k a lda tau c ldc w lw h).2.obj b).dim = (h.obj b).dim := by
  by_cases hb : b = c
  · subst hb; simp [call_dormqr, RHeap.setReal]
  · rw [call_dormqr_obj _ _ _ _ _ _ _ _ _ _ _ _ _ _ _ hb]

theorem call_dormqr_trace (L : Lapack α) (sd tr : String) (m n k : Int) (a : Nat) (lda : Int)
    (tau c : Nat) (ldc : Int) (w : List α) (lw : Int) (h : RHeap α) :
    (call_dormqr L sd tr m n k a lda tau c ldc w lw h).2.trace
      = h.trace ++ [.dormqr a tau c lw (call_dormqr L sd tr m n k a lda tau c ldc w lw h).1.2] :=
  rfl

theorem call_dormqr_next (L : Lapack α) (sd tr : String) (m n k : Int) (a : Nat) (lda : Int)
    (tau c : Nat) (ldc : Int) (w : List α) (lw : Int) (h : RHeap α) :
    (call_dormqr L sd tr m n k a lda tau c ldc w lw h).2.next = h.next := rfl

theorem call_dtrtrs_obj (L : Lapack α) (ul tr dg : String) (n nrhs : Int) (a : Nat) (lda : Int)
    (b : Nat) (ldb : Int) (h : RHeap α) (c : Nat) (hc : c ≠ b) :
    (call_dtrtrs L ul tr dg n nrhs a lda b ldb h).2.obj c = h.obj c := by
  simp [call_dtrtrs, RHeap.setReal, Function.update_noteq hc]

theorem call_dtrtrs_dim (L : Lapack α) (ul tr dg : String) (n nrhs : Int) (a : Nat) (lda : Int)
    (b : Nat) (ldb : Int) (h : RHeap α) (c : Nat) :
    ((call_dtrtrs L ul tr dg n nrhs a lda b ldb h).2.obj c).dim = (h.obj c).dim := by
  by_cases hc : c = b
  · subst hc; simp [call_dtrtrs, RHeap.setReal]
  · rw [call_dtrtrs_obj _ _ _ _ _ _ _ _ _ _ _ _ hc]

theorem call_dtrtrs_trace (L : Lapack α) (ul tr dg : String) (n nrhs : Int) (a : Nat)
    (lda : Int) (b : Nat) (ldb : Int) (h : RHeap α) :
    (call_dtrtrs L ul tr dg n nrhs a lda b ldb h).2.trace
      = h.trace ++ [.dtrtrs a b (call_dtrtrs L ul tr dg n nrhs a lda b ldb h).1] := rfl

end apply


/-- The four ways in which lines 16-37 end. -/
theorem qr_coef_lapack_cases {α : Type} (L : Lapack α) (qr tau B : Nat) (n nrhs k : Int)
    (h : RHeap α) :
    ((qr_coef_lapack L qr tau B n nrhs k h).result = .ok B ∧
        lapackInfos (qr_coef_lapack L qr tau B n nrhs k h).state.trace
          = lapackInfos h.trace ++ [("dormqr", 0), ("dormqr", 0), ("dtrtrs", 0)]) ∨
     (∃ i : Int, i ≠ 0 ∧
        (qr_coef_lapack L qr tau B n nrhs k h).result = .error (.error
          "error code %d from Lapack routine '%s'" [.int i, .str "dormqr [tmp]"]) ∧
        lapackInfos (qr_coef_lapack L qr tau B n nrhs k h).state.trace
          = lapackInfos h.trace ++ [("dormqr", i)]) ∨
     (∃ i : Int, i ≠ 0 ∧
        (qr_coef_lapack L qr tau B n nrhs k h).result = .error (.error
          "error code %d from Lapack routine '%s'" [.int i, .str "dormqr [work]"]) ∧
        lapackInfos (qr_coef_lapack L qr tau B n nrhs k h).state.trace
          = lapackInfos h.trace ++ [("dormqr", 0), ("dormqr", i)]) ∨
     (∃ i : Int, i ≠ 0 ∧
        (qr_coef_lapack L qr tau B n nrhs k h).result = .error (.error
          "error code %d from Lapack routine '%s'" [.int i, .str "dtrtrs"]) ∧
        lapackInfos (qr_coef_lapack L qr tau B n nrhs k h).state.trace
          = lapackInfos h.trace ++ [("dormqr", 0), ("dormqr", 0), ("dtrtrs", i)]) := by
  unfold qr_coef_lapack
  dsimp only
  split_ifs with h1 h2 h3
  · right; left
    refine ⟨_, h1, rfl, ?_⟩
    rw [call_dormqr_trace]
    simp [lapackInfos]
  · right; right; left
    refine ⟨_, h2, rfl, ?_⟩
    rw [call_dormqr_trace, call_dormqr_trace, not_not.mp h1]
    simp [lapackInfos]
  · right; right; right
    refine ⟨_, h3, rfl, ?_⟩
    rw [call_dtrtrs_trace, call_dormqr_trace, call_dormqr_trace, not_not.mp h1, not_not.mp h2]
    simp [lapackInfos]
  · left
    refine ⟨rfl, ?_⟩
    rw [call_dtrtrs_trace, call_dormqr_trace, call_dormqr_trace, not_not.mp h1, not_not.mp h2,
      not_not.mp h3]
    simp [lapackInfos]

section applyeq
variable {α : Type}

theorem copyHeap_next (L : Lapack α) (Bin : Nat) (h : RHeap α) :
    (copyHeap L Bin h).next = h.next + 1 := copy_next L Bin h _

theorem copyHeap_trace (L : Lapack α) (Bin : Nat) (h : RHeap α) :
    (copyHeap L Bin h).trace = h.trace ++ [.copy Bin h.next] := copy_trace L Bin h _

theorem copyHeap_obj (L : Lapack α) (Bin : Nat) (h : RHeap α) (a : Nat) (ha : a < h.next) :
    (copyHeap L Bin h).obj a = h.obj a := copy_obj L Bin h _ a (by omega)

theorem copyHeap_dim (L : Lapack α) (Bin : Nat) (h : RHeap α) :
    ((copyHeap L Bin h).obj h.next).dim = (h.obj Bin).dim := copy_dim L Bin h _

/-- The buffer of the copy holds the elements of `Bin`, converted to doubles
when `Bin` is not a `REALSXP`. -/
theorem copyHeap_data (L : Lapack α) (Bin : Nat) (h : RHeap α) :
    ((copyHeap L Bin h).obj h.next).data = .real ((h.obj Bin).data.toReals L.toReal) := by
  unfold copyHeap isReal
  cases hd : (h.obj Bin).data <;>
    simp [duplicate, coerceVector, SData.toReals, hd]

theorem lapackInfos_copyHeap (L : Lapack α) (Bin : Nat) (h : RHeap α) :
    lapackInfos (copyHeap L Bin h).trace = lapackInfos h.trace := by
  rw [copyHeap_trace]
  simp [lapackInfos]

theorem lapackTargets_copyHeap (L : Lapack α) (Bin : Nat) (h : RHeap α) :
    lapackTargets (copyHeap L Bin h).trace = lapackTargets h.trace := by
  rw [copyHeap_trace]
  simp [lapackTargets]

/-- With a matrix `Bin` and a live `qr`, `qr_coef_real` is the copy, the
check of the row count and the three LAPACK stages on the copy. -/
theorem qr_coef_real_eq (L : Lapack α) (Q : Factorization) (Bin : Nat) (h : RHeap α)
    (hm : isMatrix (h.obj Bin) = true) (hq : Q.qr < h.next) :
    qr_coef_real L Q Bin h =
      if dimAt h Bin 0 ≠ dimAt h Q.qr 0 then
        ⟨.error (.error "right-hand side should have %d not %d rows"
          [.int (dimAt h Q.qr 0), .int (dimAt h Bin 0)]), copyHeap L Bin h⟩
      else
        qr_coef_lapack L Q.qr Q.qraux h.next (dimAt h Q.qr 0) (dimAt h Bin 1)
          (LENGTH ((copyHeap L Bin h).obj Q.qraux).data) (copyHeap L Bin h) := by
  have hB : ∀ i, dimAt (copyHeap L Bin h) h.next i = dimAt h Bin i := by
    intro i
    unfold dimAt
    rw [copyHeap_dim]
  have hqr : dimAt (copyHeap L Bin h) Q.qr 0 = dimAt h Q.qr 0 := by
    unfold dimAt
    rw [copyHeap_obj _ _ _ _ hq]
  have e : (if isReal (h.obj Bin) then duplicate Bin h else coerceVector L Bin h).2
      = copyHeap L Bin h := rfl
  unfold qr_coef_real
  simp only [hm, Bool.not_true, Bool.false_eq_true, if_false, VECTOR_ELT, copy_fst, e, hB,
    hqr]

/-- Lines 16-37 never end with the error on the row count. -/
theorem qr_coef_lapack_not_rows (L : Lapack α) (qr tau B : Nat) (n nrhs k : Int)
    (h : RHeap α) (args : List ErrArg) :
    (qr_coef_lapack L qr tau B n nrhs k h).result
      ≠ .error (.error "right-hand side should have %d not %d rows" args) := by
  rcases qr_coef_lapack_cases L qr tau B n nrhs k h with h1 | ⟨i, _, h1, _⟩ | ⟨i, _, h1, _⟩ |
    ⟨i, _, h1, _⟩
  · rw [h1.1]; simp
  · rw [h1]; simp
  · rw [h1]; simp
  · rw [h1]; simp

end applyeq

section applyframe
variable {α : Type}

/-- Lines 16-37 leave every object other than `B` as it was. -/
theorem qr_coef_lapack_obj (L : Lapack α) (qr tau B : Nat) (n nrhs k : Int) (h : RHeap α)
    (a : Nat) (ha : a ≠ B) : (qr_coef_lapack L qr tau B n nrhs k h).state.obj a = h.obj a := by
  unfold qr_coef_lapack
  dsimp only
  split_ifs
  · rw [call_dormqr_obj _ _ _ _ _ _ _ _ _ _ _ _ _ _ _ ha]
  · rw [call_dormqr_obj _ _ _ _ _ _ _ _ _ _ _ _ _ _ _ ha,
      call_dormqr_obj _ _ _ _ _ _ _ _ _ _ _ _ _ _ _ ha]
  · rw [call_dtrtrs_obj _ _ _ _ _ _ _ _ _ _ _ _ ha,
      call_dormqr_obj _ _ _ _ _ _ _ _ _ _ _ _ _ _ _ ha,
      call_dormqr_obj _ _ _ _ _ _ _ _ _ _ _ _ _ _ _ ha]
  · rw [call_dtrtrs_obj _ _ _ _ _ _ _ _ _ _ _ _ ha,
      call_dormqr_obj _ _ _ _ _ _ _ _ _ _ _ _ _ _ _ ha,
      call_dormqr_obj _ _ _ _ _ _ _ _ _ _ _ _ _ _ _ ha]

/-- Lines 16-37 leave the `dim` attribute of every object as it was. -/
theorem qr_coef_lapack_dim (L : Lapack α) (qr tau B : Nat) (n nrhs k : Int) (h : RHeap α)
    (a : Nat) : ((qr_coef_lapack L qr tau B n nrhs k h).state.obj a).dim = (h.obj a).dim := by
  unfold qr_coef_lapack
  dsimp only
  split_ifs
  · rw [call_dormqr_dim]
  · rw [call_dormqr_dim, call_dormqr_dim]
  · rw [call_dtrtrs_dim, call_dormqr_dim, call_dormqr_dim]
  · rw [call_dtrtrs_dim, call_dormqr_dim, call_dormqr_dim]

/-- The LAPACK calls of lines 16-37 overwrite the buffer of `B` only. -/
theorem qr_coef_lapack_targets (L : Lapack α) (qr tau B : Nat) (n nrhs k : Int) (h : RHeap α) :
    ∃ evs, (qr_coef_lapack L qr tau B n nrhs k h).state.trace = h.trace ++ evs ∧
      ∀ a ∈ lapackTargets evs, a = B := by
  unfold qr_coef_lapack
  dsimp only
  split_ifs
  · exact ⟨_, call_dormqr_trace _ _ _ _ _ _ _ _ _ _ _ _ _ _, by simp [lapackTargets]⟩
  · rw [call_dormqr_trace, call_dormqr_trace, List.append_assoc]
    exact ⟨_, rfl, by simp [lapackTargets]⟩
  · rw [call_dtrtrs_trace, call_dormqr_trace, call_dormqr_trace, List.append_assoc,
      List.append_assoc]
    exact ⟨_, rfl, by simp [lapackTargets]⟩
  · rw [call_dtrtrs_trace, call_dormqr_trace, call_dormqr_trace, List.append_assoc,
      List.append_assoc]
    exact ⟨_, rfl, by simp [lapackTargets]⟩

/-- When lines 16-37 return, they return `B`. -/
theorem qr_coef_lapack_ok (L : Lapack α) (qr tau B : Nat) (n nrhs k : Int) (h : RHeap α)
    (b : Nat) (hb : (qr_coef_lapack L qr tau B n nrhs k h).result = .ok b) : b = B := by
  rcases qr_coef_lapack_cases L qr tau B n nrhs k h with h1 | ⟨i, _, h1, _⟩ | ⟨i, _, h1, _⟩ |
    ⟨i, _, h1, _⟩
  · rw [h1.1] at hb
    exact (Except.ok.inj hb).symm
  · rw [h1] at hb; cases hb
  · rw [h1] at hb; cases hb
  · rw [h1] at hb; cases hb

end applyframe

/-! ## Lemmas on the loops of the family functions -/

section devloop
variable {α : Type}

end devloop

section devreads
variable {α : Type}

/-- The log component of a loop that writes `rans[i] = f i` and logs the
reads `g i`: the reads logged before the loop, then those of each
iteration. -/
theorem devLoop_snd (f : Nat → α) (g : Nat → List Read) (l : List Nat) (init : List α)
    (log : List Read) :
    (l.foldl (fun (st : List α × List Read) i => (st.1.set i (f i), st.2 ++ g i))
      (init, log)).2 = log ++ l.flatMap g := by
  induction l generalizing init log with
  | nil => simp
  | cons i l ih => rw [List.foldl_cons, ih, List.flatMap_cons, List.append_assoc]

/-- A read logged by a loop over `0, ..., n-1` was logged before the loop or
by an iteration `i < n`. -/
theorem devLoop_mem (f : Nat → α) (g : Nat → List Read) (n : Nat) (init : List α)
    (log : List Read) (r : Read)
    (hr : r ∈ ((List.range n).foldl
      (fun (st : List α × List Read) i => (st.1.set i (f i), st.2 ++ g i)) (init, log)).2) :
    r ∈ log ∨ ∃ i, i < n ∧ r ∈ g i := by
  rw [devLoop_snd, List.mem_append, List.mem_flatMap] at hr
  rcases hr with h | ⟨i, hi, h⟩
  · exact Or.inl h
  · exact Or.inr ⟨i, List.mem_range.mp hi, h⟩

end devreads

/-- The sibling `gaussian_dev_resids` reads `rmu[lmu > 1 ? i : 0]` inside the
loop: with lengths that pass the two checks, every read is in bounds, also
when `y` and `mu` are empty. -/
theorem gaussian_dev_resids_reads {α : Type} (A : Arith α) (y mu wt : SData α)
    (hmu : LENGTH mu = LENGTH y ∨ LENGTH mu = 1)
    (hwt : LENGTH wt = LENGTH y ∨ LENGTH wt = 1) :
    ∀ r ∈ (gaussian_dev_resids A y mu wt).reads, r.idx < bufLength y mu wt r.buf := by
  have h1 : ¬ (LENGTH mu ≠ LENGTH y ∧ LENGTH mu ≠ 1) := by omega
  have h2 : ¬ (LENGTH wt ≠ LENGTH y ∧ LENGTH wt ≠ 1) := by omega
  unfold gaussian_dev_resids
  dsimp only
  rw [if_neg h1, if_neg h2]
  intro r hr
  rcases devLoop_mem _ _ _ _ _ r hr with h | ⟨i, hi, h⟩
  · simp at h
  · simp only [List.mem_cons, List.mem_singleton, List.not_mem_nil, or_false] at h
    rcases h with h | h | h
    · subst h
      show (if LENGTH mu > 1 then i else 0) < LENGTH mu
      split_ifs <;> omega
    · subst h; exact hi
    · subst h
      show (if LENGTH wt > 1 then i else 0) < LENGTH wt
      split_ifs <;> omega

/-- The sibling `poisson_dev_resids` reads `rmu[lmu > 1 ? i : 0]` inside the
loop: with lengths that pass the two checks, every read is in bounds, also
when `y` and `mu` are empty. -/
theorem poisson_dev_resids_reads {α : Type} (A : Arith α) (y mu wt : SData α)
    (hmu : LENGTH mu = LENGTH y ∨ LENGTH mu = 1)
    (hwt : LENGTH wt = LENGTH y ∨ LENGTH wt = 1) :
    ∀ r ∈ (poisson_dev_resids A y mu wt).reads, r.idx < bufLength y mu wt r.buf := by
  have h1 : ¬ (LENGTH mu ≠ LENGTH y ∧ LENGTH mu ≠ 1) := by omega
  have h2 : ¬ (LENGTH wt ≠ LENGTH y ∧ LENGTH wt ≠ 1) := by omega
  unfold poisson_dev_resids
  dsimp only
  rw [if_neg h1, if_neg h2]
  intro r hr
  rcases devLoop_mem _ _ _ _ _ r hr with h | ⟨i, hi, h⟩
  · simp at h
  · simp only [List.mem_cons, List.mem_singleton, List.not_mem_nil, or_false] at h
    rcases h with h | h | h
    · subst h
      show (if LENGTH mu > 1 then i else 0) < LENGTH mu
      split_ifs <;> omega
    · subst h; exact hi
    · subst h
      show (if LENGTH wt > 1 then i else 0) < LENGTH wt
      split_ifs <;> omega

/-! ## The build path: claims -/

/-- C6. When the row counts of `x` and `y` differ, `qr_solve` fails at its
first statement, the assertion `NROW(x) == NROW(y)`, and leaves the machine
exactly as it found it: the mark has not moved (no scratch buffer was
allocated), the memory is the same and the trace has not grown (no transpose
was made, neither `dqrdc2` nor `dqrcf` was invoked). -/
theorem qr_solve_row_mismatch {α : Type} (P : Prims α) (x y coef : Array) (s : Machine α)
    (h : NROW x ≠ NROW y) :
    qr_solve P x y coef s = ⟨.error (.assertion "NROW(x) == NROW(y)"), s⟩ ∧
    allocAddrs (qr_solve P x y coef s).state.trace = allocAddrs s.trace ∧
    transposes (qr_solve P x y coef s).state.trace = transposes s.trace ∧
    primAddrs (qr_solve P x y coef s).state.trace = primAddrs s.trace := by
  have h1 : qr_solve P x y coef s = ⟨.error (.assertion "NROW(x) == NROW(y)"), s⟩ := by
    unfold qr_solve
    simp [h]
  rw [h1]
  exact ⟨rfl, rfl, rfl, rfl⟩

/-- C6 at `x` 5x3 and `y` 4x2 (with `coef` 3x2): the call fails on the row
counts, nothing was allocated and no primitive was called. -/
theorem qr_solve_row_mismatch_witness :
    NROW ⟨0, 5, 3⟩ ≠ NROW ⟨1, 4, 2⟩ ∧
    (qr_solve (scripted 3 [] 0) ⟨0, 5, 3⟩ ⟨1, 4, 2⟩ ⟨2, 3, 2⟩
        (callerMem (List.replicate 15 1) (List.replicate 8 1) (List.replicate 6 0))
      = ⟨.error (.assertion "NROW(x) == NROW(y)"),
          callerMem (List.replicate 15 1) (List.replicate 8 1) (List.replicate 6 0)⟩ ∧
     allocAddrs (qr_solve (scripted 3 [] 0) ⟨0, 5, 3⟩ ⟨1, 4, 2⟩ ⟨2, 3, 2⟩
        (callerMem (List.replicate 15 1) (List.replicate 8 1)
          (List.replicate 6 0))).state.trace = allocAddrs [] ∧
     transposes (qr_solve (scripted 3 [] 0) ⟨0, 5, 3⟩ ⟨1, 4, 2⟩ ⟨2, 3, 2⟩
        (callerMem (List.replicate 15 1) (List.replicate 8 1)
          (List.replicate 6 0))).state.trace = transposes [] ∧
     primAddrs (qr_solve (scripted 3 [] 0) ⟨0, 5, 3⟩ ⟨1, 4, 2⟩ ⟨2, 3, 2⟩
        (callerMem (List.replicate 15 1) (List.replicate 8 1)
          (List.replicate 6 0))).state.trace = primAddrs []) :=
  ⟨by decide, qr_solve_row_mismatch (scripted 3 [] 0) ⟨0, 5, 3⟩ ⟨1, 4, 2⟩ ⟨2, 3, 2⟩
    (callerMem (List.replicate 15 1) (List.replicate 8 1) (List.replicate 6 0)) (by decide)⟩

/-- C1. Let `x`, `y` and `coef` pass the three shape assertions and let
`coef` be a live buffer of the caller. The rank that `dqrdc2` reports is
`(qr_factor P x s).rank`: it is the one rank the call adds to the trace. If
it differs from `p = NCOL(x)`, `qr_solve` ends with the error "Singular
matrix in qr_solve", no call of `dqrcf` has been added to the trace and the
buffer of `coef` holds what it held at entry. If it equals `p`, `qr_solve`
does not end with that error: it returns normally. -/
theorem qr_solve_rank_check {α : Type} (P : Prims α) (x y coef : Array) (s : Machine α)
    (h1 : NROW x = NROW y) (h2 : NCOL coef = NCOL y) (h3 : NCOL x = NROW coef)
    (hc : coef.vec < s.vmax) :
    (dqrdc2Ranks (qr_solve P x y coef s).state.trace
        = dqrdc2Ranks s.trace ++ [(qr_factor P x s).rank]) ∧
    ((qr_factor P x s).rank ≠ (NCOL x : Int) →
      (qr_solve P x y coef s).result = .error (.error "Singular matrix in qr_solve" []) ∧
      dqrcfInfos (qr_solve P x y coef s).state.trace = dqrcfInfos s.trace ∧
      (qr_solve P x y coef s).state.mem coef.vec = s.mem coef.vec) ∧
    ((qr_factor P x s).rank = (NCOL x : Int) →
      (qr_solve P x y coef s).result ≠ .error (.error "Singular matrix in qr_solve" []) ∧
      (qr_solve P x y coef s).result = .ok ()) := by
  rw [qr_solve_eq P x y coef s h1 h2 h3]
  refine ⟨?_, ?_, ?_⟩
  · by_cases hr : (qr_factor P x s).rank = (NCOL x : Int)
    · simp [hr, vmaxset, qr_backsolve_trace, qr_factor_trace, dqrdc2Ranks]
    · simp [hr, qr_factor_trace, dqrdc2Ranks]
  · intro hr
    simp [hr, qr_factor_trace, dqrcfInfos, qr_factor_mem P x s coef.vec hc]
  · intro hr
    simp [hr]

/-- C1 at `X = [[1,1],[2,2],[3,3]]` with `dqrdc2` reporting rank 1: the
call ends with the singular-matrix error and `coef` still holds `[9, 9]`. -/
theorem qr_solve_rank_check_witness :
    (dqrdc2Ranks (qr_solve (scripted 1 [5, 5] 0) ⟨0, 3, 2⟩ ⟨1, 3, 1⟩ ⟨2, 2, 1⟩
        (callerMem [1, 1, 2, 2, 3, 3] [1, 1, 2] [9, 9])).state.trace = [1]) ∧
    (qr_solve (scripted 1 [5, 5] 0) ⟨0, 3, 2⟩ ⟨1, 3, 1⟩ ⟨2, 2, 1⟩
        (callerMem [1, 1, 2, 2, 3, 3] [1, 1, 2] [9, 9])).result
      = .error (.error "Singular matrix in qr_solve" []) ∧
    (qr_solve (scripted 1 [5, 5] 0) ⟨0, 3, 2⟩ ⟨1, 3, 1⟩ ⟨2, 2, 1⟩
        (callerMem [1, 1, 2, 2, 3, 3] [1, 1, 2] [9, 9])).state.mem 2 = .dbl [9, 9] :=
  have h := qr_solve_rank_check (scripted 1 [5, 5] 0) ⟨0, 3, 2⟩ ⟨1, 3, 1⟩ ⟨2, 2, 1⟩
    (callerMem [1, 1, 2, 2, 3, 3] [1, 1, 2] [9, 9]) rfl rfl rfl (by decide)
  ⟨h.1, (h.2.1 (by decide)).1, (h.2.1 (by decide)).2.2⟩

/-- C7. On every exit of `qr_solve` (failed assertion, singular-matrix
error or normal return) every buffer that was live at entry, other than the
buffer of `coef`, holds what it held at entry; so do the buffers of `x` and
`y`, which are live at entry and are not the buffer of `coef`. Every address
handed to `dqrdc2` or `dqrcf` during the call is a buffer that the call
allocated itself, at or above the entry mark: the primitives only ever see
the private copies. -/
theorem qr_solve_frame {α : Type} (P : Prims α) (x y coef : Array) (s : Machine α)
    (hx : x.vec < s.vmax) (hy : y.vec < s.vmax)
    (hxc : x.vec ≠ coef.vec) (hyc : y.vec ≠ coef.vec) :
    (qr_solve P x y coef s).state.mem x.vec = s.mem x.vec ∧
    (qr_solve P x y coef s).state.mem y.vec = s.mem y.vec ∧
    (∀ a, a < s.vmax → a ≠ coef.vec → (qr_solve P x y coef s).state.mem a = s.mem a) ∧
    ∃ evs, (qr_solve P x y coef s).state.trace = s.trace ++ evs ∧
      ∀ a ∈ primAddrs evs, a ∈ allocAddrs evs ∧ s.vmax ≤ a := by
  have key : (∀ a, a < s.vmax → a ≠ coef.vec →
        (qr_solve P x y coef s).state.mem a = s.mem a) ∧
      ∃ evs, (qr_solve P x y coef s).state.trace = s.trace ++ evs ∧
        ∀ a ∈ primAddrs evs, a ∈ allocAddrs evs ∧ s.vmax ≤ a := by
    by_cases hs : NROW x = NROW y ∧ NCOL coef = NCOL y ∧ NCOL x = NROW coef
    · obtain ⟨h1, h2, h3⟩ := hs
      rw [qr_solve_eq P x y coef s h1 h2 h3]
      by_cases hr : (qr_factor P x s).rank = (NCOL x : Int)
      · rw [if_neg (not_not.mpr hr)]
        refine ⟨fun a ha hac => qr_solve_ok_mem P x y coef s a ha hac,
          _, qr_solve_ok_trace P x y coef s, ?_⟩
        intro a ha
        simp [primAddrs, allocAddrs] at ha ⊢
        omega
      · rw [if_pos hr]
        refine ⟨fun a ha _ => qr_factor_mem P x s a ha, _, qr_factor_trace P x s, ?_⟩
        intro a ha
        simp [primAddrs, allocAddrs] at ha ⊢
        omega
    · rw [(qr_solve_of_shape_fail P x y coef s hs).1]
      exact ⟨fun _ _ _ => rfl, [], by simp, by simp [primAddrs]⟩
  exact ⟨key.1 x.vec hx hxc, key.1 y.vec hy hyc, key.1, key.2⟩

/-- C7 at `X = [[1,0],[0,1],[1,1]]`, `Y = [[1],[1],[2]]` with primitives that
clobber every buffer they are handed: after the call `x` and `y` hold their
entry values. -/
theorem qr_solve_frame_witness :
    (qr_solve (scripted 2 [1, 1] 0) ⟨0, 3, 2⟩ ⟨1, 3, 1⟩ ⟨2, 2, 1⟩
        (callerMem [1, 0, 0, 1, 1, 1] [1, 1, 2] [9, 9])).state.mem 0 = .dbl [1, 0, 0, 1, 1, 1] ∧
    (qr_solve (scripted 2 [1, 1] 0) ⟨0, 3, 2⟩ ⟨1, 3, 1⟩ ⟨2, 2, 1⟩
        (callerMem [1, 0, 0, 1, 1, 1] [1, 1, 2] [9, 9])).state.mem 1 = .dbl [1, 1, 2] :=
  have h := qr_solve_frame (scripted 2 [1, 1] 0) ⟨0, 3, 2⟩ ⟨1, 3, 1⟩ ⟨2, 2, 1⟩
    (callerMem [1, 0, 0, 1, 1, 1] [1, 1, 2] [9, 9]) (by decide) (by decide) (by decide)
    (by decide)
  ⟨h.1, h.2.1⟩

/-- C2. Round trip of the build path. Let `x`, `y` and `coef` pass the shape
assertions, let the caller's buffers of `x` and `y` hold the matrices `X`
(`n × p`) and `Y` (`n × ny`) in row-major order, and let the primitives be
exact on their column-major arguments: handed the column-major image of `X`
(leading dimension `n`) `dqrdc2` reports rank `p`, and handed its output and
the column-major image of `Y`, `dqrcf` delivers the column-major image of the
solution `C` (`p × ny`). Then `qr_solve` returns normally and the caller's
buffer of `coef` holds `C` in row-major order: coefficient `i` of right-hand
side `j` is at `coef[i][j]`. -/
theorem qr_solve_round_trip {α : Type} (P : Prims α) (x y coef : Array) (s : Machine α)
    (X Y C : Nat → Nat → α)
    (h1 : NROW x = NROW y) (h2 : NCOL coef = NCOL y) (h3 : NCOL x = NROW coef)
    (hx : x.vec < s.vmax) (hy : y.vec < s.vmax)
    (hX : RowMajor (s.dbls x.vec) (NROW x) (NCOL x) X)
    (hY : RowMajor (s.dbls y.vec) (NROW y) (NCOL y) Y)
    (hexact : ∀ xb yb q pv w b i,
      ColMajor xb (NROW x) (NCOL x) X → ColMajor yb (NROW y) (NCOL y) Y →
      (P.dqrdc2 xb (NROW x) (NROW x) (NCOL x) P.tol q pv w).rank = (NCOL x : Int) ∧
      ColMajor (P.dqrcf (P.dqrdc2 xb (NROW x) (NROW x) (NCOL x) P.tol q pv w).x (NROW x)
        (P.dqrdc2 xb (NROW x) (NROW x) (NCOL x) P.tol q pv w).rank
        (P.dqrdc2 xb (NROW x) (NROW x) (NCOL x) P.tol q pv w).qraux yb (NCOL y) b i).b
        (NCOL x) (NCOL y) C) :
    (qr_solve P x y coef s).result = .ok () ∧
    RowMajor ((qr_solve P x y coef s).state.dbls coef.vec) (NROW coef) (NCOL coef) C := by
  have hxb := transposeData_colMajor P.zero _ _ _ X hX
  have hyb := transposeData_colMajor P.zero _ _ _ Y hY
  have hrank : (qr_factor P x s).rank = (NCOL x : Int) := by
    rw [qr_factor_rank P x s hx]
    exact (hexact _ _ _ _ _ [] 0 hxb hyb).1
  have hargs := qr_backsolve_args P x y coef (qr_factor P x s) 0
    (by simp) (by simp) (by simp; omega)
  have hb : (backsolveOut P x y coef (qr_factor P x s) 0).b
      = (P.dqrcf (factorOut P x s).x (NROW x) (factorOut P x s).rank (factorOut P x s).qraux
          (transposeData P.zero (s.dbls y.vec) (NROW y) (NCOL y)) (NCOL y)
          (List.replicate (NCOL coef * NROW coef) P.zero) 0).b := by
    unfold backsolveOut
    rw [qr_factor_xt, qr_factor_qraux, qr_factor_xt_data P x s hx,
      qr_factor_qraux_data P x s hx, qr_factor_rank P x s hx,
      dbls_congr _ _ _ _ (qr_factor_mem P x s y.vec hy)]
  rw [qr_solve_eq P x y coef s h1 h2 h3, if_neg (not_not.mpr hrank)]
  refine ⟨rfl, ?_⟩
  have hmem : (vmaxset s.vmax (transpose_matrix P
        (qr_backsolve P x y coef (qr_factor P x s) 0).coeft coef
        (qr_backsolve P x y coef (qr_factor P x s) 0).state)).dbls coef.vec
      = transposeData P.zero (backsolveOut P x y coef (qr_factor P x s) 0).b
          (NCOL coef) (NROW coef) := by
    apply dbls_of_mem
    show (transpose_matrix P _ coef _).mem coef.vec = _
    rw [transpose_matrix_mem_self, qr_backsolve_coeft]
    simp only [NROW, NCOL]
    rw [← hargs.2]
  rw [hmem, hb, ← h3, h2]
  exact transposeData_rowMajor P.zero _ _ _ C
    (hexact _ _ _ _ _ _ _ hxb hyb).2


/-- C2 at `X = [[1,0],[0,1],[1,1]]`, `Y = [[1],[1],[2]]` with primitives that
deliver the solution `[1, 1]`: `coef` becomes `[[1],[1]]`. -/
theorem qr_solve_round_trip_witness :
    (qr_solve (scripted 2 [1, 1] 0) ⟨0, 3, 2⟩ ⟨1, 3, 1⟩ ⟨2, 2, 1⟩
        (callerMem [1, 0, 0, 1, 1, 1] [1, 1, 2] [9, 9])).result = .ok () ∧
    RowMajor ((qr_solve (scripted 2 [1, 1] 0) ⟨0, 3, 2⟩ ⟨1, 3, 1⟩ ⟨2, 2, 1⟩
        (callerMem [1, 0, 0, 1, 1, 1] [1, 1, 2] [9, 9])).state.dbls 2) 2 1 (fun _ _ => 1) :=
  qr_solve_round_trip (scripted 2 [1, 1] 0) ⟨0, 3, 2⟩ ⟨1, 3, 1⟩ ⟨2, 2, 1⟩
    (callerMem [1, 0, 0, 1, 1, 1] [1, 1, 2] [9, 9])
    (fun i j => if i = 0 then (if j = 0 then 1 else 0)
      else if i = 1 then (if j = 0 then 0 else 1) else 1)
    (fun i _ => if i = 2 then 2 else 1) (fun _ _ => 1) rfl rfl rfl (by decide) (by decide)
    (by unfold RowMajor; decide) (by unfold RowMajor; decide)
    (fun _ _ _ _ _ _ _ _ _ =>
      ⟨rfl, (by unfold ColMajor; decide : ColMajor ([1, 1] : List Int) 2 1 (fun _ _ => 1))⟩)

/-- C5, which the code does not meet. Let the shape assertions pass and let
`dqrdc2` report rank `p`. Whatever diagnostic code `dqrcf` sets, zero or
not, `qr_solve` returns normally: the code is recorded in the trace and is
never read, and the buffer of `coef` is overwritten with the transpose of
whatever `dqrcf` left in `coeft`. No failure of `dqrcf` reaches the caller. -/
theorem qr_solve_info_not_checked {α : Type} (P : Prims α) (x y coef : Array) (s : Machine α)
    (h1 : NROW x = NROW y) (h2 : NCOL coef = NCOL y) (h3 : NCOL x = NROW coef)
    (hr : (qr_factor P x s).rank = (NCOL x : Int)) :
    (qr_solve P x y coef s).result = .ok () ∧
    dqrcfInfos (qr_solve P x y coef s).state.trace
      = dqrcfInfos s.trace ++ [(qr_backsolve P x y coef (qr_factor P x s) 0).info] ∧
    (qr_solve P x y coef s).state.mem coef.vec
      = .dbl (transposeData P.zero
          ((qr_backsolve P x y coef (qr_factor P x s) 0).state.dbls (s.vmax + 5))
          (NCOL coef) (NROW coef)) := by
  rw [qr_solve_eq P x y coef s h1 h2 h3, if_neg (not_not.mpr hr)]
  refine ⟨rfl, ?_, ?_⟩
  · rw [qr_solve_ok_trace]
    simp [dqrcfInfos]
  · show (transpose_matrix P _ coef _).mem coef.vec = _
    rw [transpose_matrix_mem_self, qr_backsolve_coeft]
    simp [NROW, NCOL]

/-- C5 at `X = [[1,0],[0,1],[1,1]]`, `Y = [[1],[1],[2]]`, `coef = [[9],[9]]`
with `dqrdc2` reporting rank 2 and `dqrcf` setting `info = 7`: the call
returns normally and `coef` has been overwritten. -/
theorem qr_solve_info_not_checked_witness :
    (qr_solve (scripted 2 [1, 1] 7) ⟨0, 3, 2⟩ ⟨1, 3, 1⟩ ⟨2, 2, 1⟩
        (callerMem [1, 0, 0, 1, 1, 1] [1, 1, 2] [9, 9])).result = .ok () ∧
    dqrcfInfos (qr_solve (scripted 2 [1, 1] 7) ⟨0, 3, 2⟩ ⟨1, 3, 1⟩ ⟨2, 2, 1⟩
        (callerMem [1, 0, 0, 1, 1, 1] [1, 1, 2] [9, 9])).state.trace = [7] ∧
    (qr_solve (scripted 2 [1, 1] 7) ⟨0, 3, 2⟩ ⟨1, 3, 1⟩ ⟨2, 2, 1⟩
        (callerMem [1, 0, 0, 1, 1, 1] [1, 1, 2] [9, 9])).state.mem 2 = .dbl [1, 1] :=
  qr_solve_info_not_checked (scripted 2 [1, 1] 7) ⟨0, 3, 2⟩ ⟨1, 3, 1⟩ ⟨2, 2, 1⟩
    (callerMem [1, 0, 0, 1, 1, 1] [1, 1, 2] [9, 9]) rfl rfl rfl rfl

/-- C8. On every exit of a call of `qr_solve` (failed assertion,
singular-matrix error or normal return) the mark of the arena equals the
mark at entry, the one that line 18 saves, and every buffer that the call
allocated lies at or above that mark: it has been released. On the normal
return it is `qr_solve` itself that restores the mark, with `vmaxset(vmax)`
of line 48; on an error exit the outcome is the one of the function body and
the release is the unwinding of `error`. -/
theorem qr_solve_call_mark {α : Type} (P : Prims α) (x y coef : Array) (s : Machine α) :
    (qr_solve_call P x y coef s).state.vmax = s.vmax ∧
    (qr_solve_call P x y coef s).result = (qr_solve P x y coef s).result ∧
    ((qr_solve P x y coef s).result = .ok () → (qr_solve P x y coef s).state.vmax = s.vmax) ∧
    ∃ evs, (qr_solve_call P x y coef s).state.trace = s.trace ++ evs ∧
      ∀ a ∈ allocAddrs evs, (qr_solve_call P x y coef s).state.vmax ≤ a := by
  unfold qr_solve_call
  by_cases hs : NROW x = NROW y ∧ NCOL coef = NCOL y ∧ NCOL x = NROW coef
  · obtain ⟨h1, h2, h3⟩ := hs
    rw [qr_solve_eq P x y coef s h1 h2 h3]
    by_cases hr : (qr_factor P x s).rank = (NCOL x : Int)
    · rw [if_neg (not_not.mpr hr)]
      refine ⟨rfl, rfl, fun _ => rfl, _, qr_solve_ok_trace P x y coef s, ?_⟩
      intro a ha
      show s.vmax ≤ a
      simp [allocAddrs] at ha
      omega
    · rw [if_pos hr]
      refine ⟨rfl, rfl, fun h => (by cases h), _, qr_factor_trace P x s, ?_⟩
      intro a ha
      show s.vmax ≤ a
      simp [allocAddrs] at ha
      omega
  · obtain ⟨hst, e, he⟩ := qr_solve_of_shape_fail P x y coef s hs
    have hu : unwind (vmaxget s) (qr_solve P x y coef s)
        = ⟨.error (.assertion e), vmaxset s.vmax (qr_solve P x y coef s).state⟩ := by
      unfold unwind
      rw [he]
      rfl
    rw [hu, hst]
    exact ⟨rfl, he.symm, fun _ => rfl, [], by simp [vmaxset], by simp [allocAddrs]⟩

/-- C8 at `X = [[1,1],[2,2],[3,3]]` with `dqrdc2` reporting rank 1 and the
mark at 3 on entry: the call ends with the singular-matrix error and the
mark at 3; the four buffers it allocated are at the addresses 3 to 6. -/
theorem qr_solve_call_mark_example :
    (qr_solve_call (scripted 1 [5, 5] 0) ⟨0, 3, 2⟩ ⟨1, 3, 1⟩ ⟨2, 2, 1⟩
        (callerMem [1, 1, 2, 2, 3, 3] [1, 1, 2] [9, 9])).result
      = .error (.error "Singular matrix in qr_solve" []) ∧
    (qr_solve_call (scripted 1 [5, 5] 0) ⟨0, 3, 2⟩ ⟨1, 3, 1⟩ ⟨2, 2, 1⟩
        (callerMem [1, 1, 2, 2, 3, 3] [1, 1, 2] [9, 9])).state.vmax = 3 ∧
    allocAddrs (qr_solve_call (scripted 1 [5, 5] 0) ⟨0, 3, 2⟩ ⟨1, 3, 1⟩ ⟨2, 2, 1⟩
        (callerMem [1, 1, 2, 2, 3, 3] [1, 1, 2] [9, 9])).state.trace = [3, 4, 5, 6] :=
  ⟨rfl, rfl, rfl⟩

/-! ## The apply path: claims -/

/-- C3. Let `Bin` be a matrix and let `n` be the row count of the
factorization's `qr`, a live object. If the row count of `Bin` differs from
`n`, `qr_coef_real` fails with the error "right-hand side should have %d not
%d rows", which carries `n` and the row count of `Bin`, and no call of
`dormqr` (the workspace probe included) or `dtrtrs` has been added to the
trace. If the row counts agree, the call does not end with that error,
whatever its arguments. -/
theorem qr_coef_real_row_check {α : Type} (L : Lapack α) (Q : Factorization) (Bin : Nat)
    (h : RHeap α) (hm : isMatrix (h.obj Bin) = true) (hq : Q.qr < h.next) :
    (dimAt h Bin 0 ≠ dimAt h Q.qr 0 →
      (qr_coef_real L Q Bin h).result = .error (.error
        "right-hand side should have %d not %d rows"
        [.int (dimAt h Q.qr 0), .int (dimAt h Bin 0)]) ∧
      lapackInfos (qr_coef_real L Q Bin h).state.trace = lapackInfos h.trace) ∧
    (dimAt h Bin 0 = dimAt h Q.qr 0 → ∀ args,
      (qr_coef_real L Q Bin h).result ≠ .error (.error
        "right-hand side should have %d not %d rows" args)) := by
  rw [qr_coef_real_eq L Q Bin h hm hq]
  refine ⟨fun hne => ?_, fun heq args => ?_⟩
  · rw [if_pos hne]
    exact ⟨rfl, lapackInfos_copyHeap L Bin h⟩
  · rw [if_neg (not_not.mpr heq)]
    exact qr_coef_lapack_not_rows _ _ _ _ _ _ _ _ _

/-- C3 at a 2x2 right-hand side and a factorization of a 3x2 matrix: the
error reports 3 and 2 and no LAPACK routine has been called. -/
theorem qr_coef_real_row_check_witness :
    (qr_coef_real (scriptedLapack 0 0 0) callerQ 2
        (callerHeap (.other [1, 2, 3, 4]) [2, 2])).result
      = .error (.error "right-hand side should have %d not %d rows" [.int 3, .int 2]) ∧
    lapackInfos (qr_coef_real (scriptedLapack 0 0 0) callerQ 2
        (callerHeap (.other [1, 2, 3, 4]) [2, 2])).state.trace = lapackInfos [] :=
  (qr_coef_real_row_check (scriptedLapack 0 0 0) callerQ 2
    (callerHeap (.other [1, 2, 3, 4]) [2, 2]) rfl (by decide)).1 (by decide)

/-- C4. Let `Bin` be a matrix whose row count is the row count of the
factorization's `qr`. The call returns a result if and only if the three
LAPACK calls it adds to the trace are the probe, the apply and the solve,
each with diagnostic code 0. More precisely it ends in one of four ways:
it returns the copy of `Bin` after the three calls reported 0; or the probe
reported `i ≠ 0`, the error carries `i` and names "dormqr [tmp]" and no
other call was made; or the probe reported 0, the apply reported `i ≠ 0`,
the error carries `i` and names "dormqr [work]" and `dtrtrs` was not called;
or probe and apply reported 0, the solve reported `i ≠ 0` and the error
carries `i` and names "dtrtrs". -/
theorem qr_coef_real_stages {α : Type} (L : Lapack α) (Q : Factorization) (Bin : Nat)
    (h : RHeap α) (hm : isMatrix (h.obj Bin) = true) (hq : Q.qr < h.next)
    (hrows : dimAt h Bin 0 = dimAt h Q.qr 0) :
    ((∃ b, (qr_coef_real L Q Bin h).result = .ok b) ↔
      lapackInfos (qr_coef_real L Q Bin h).state.trace
        = lapackInfos h.trace ++ [("dormqr", 0), ("dormqr", 0), ("dtrtrs", 0)]) ∧
    (((qr_coef_real L Q Bin h).result = .ok h.next ∧
        lapackInfos (qr_coef_real L Q Bin h).state.trace
          = lapackInfos h.trace ++ [("dormqr", 0), ("dormqr", 0), ("dtrtrs", 0)]) ∨
     (∃ i : Int, i ≠ 0 ∧
        (qr_coef_real L Q Bin h).result = .error (.error
          "error code %d from Lapack routine '%s'" [.int i, .str "dormqr [tmp]"]) ∧
        lapackInfos (qr_coef_real L Q Bin h).state.trace
          = lapackInfos h.trace ++ [("dormqr", i)]) ∨
     (∃ i : Int, i ≠ 0 ∧
        (qr_coef_real L Q Bin h).result = .error (.error
          "error code %d from Lapack routine '%s'" [.int i, .str "dormqr [work]"]) ∧
        lapackInfos (qr_coef_real L Q Bin h).state.trace
          = lapackInfos h.trace ++ [("dormqr", 0), ("dormqr", i)]) ∨
     (∃ i : Int, i ≠ 0 ∧
        (qr_coef_real L Q Bin h).result = .error (.error
          "error code %d from Lapack routine '%s'" [.int i, .str "dtrtrs"]) ∧
        lapackInfos (qr_coef_real L Q Bin h).state.trace
          = lapackInfos h.trace ++ [("dormqr", 0), ("dormqr", 0), ("dtrtrs", i)])) := by
  rw [qr_coef_real_eq L Q Bin h hm hq, if_neg (not_not.mpr hrows)]
  have hc := qr_coef_lapack_cases L Q.qr Q.qraux h.next (dimAt h Q.qr 0) (dimAt h Bin 1)
    (LENGTH ((copyHeap L Bin h).obj Q.qraux).data) (copyHeap L Bin h)
  rw [lapackInfos_copyHeap] at hc
  refine ⟨?_, hc⟩
  rcases hc with h1 | ⟨i, hi, h1, h2⟩ | ⟨i, hi, h1, h2⟩ | ⟨i, hi, h1, h2⟩
  · exact ⟨fun _ => h1.2, fun _ => ⟨_, h1.1⟩⟩
  · rw [h1, h2]
    simp
  · rw [h1, h2]
    simp [hi]
  · rw [h1, h2]
    simp [hi]

/-- C4 with the probe reporting 0 and the apply reporting 5: the error
carries 5 and names the apply stage, and `dtrtrs` has not been called. -/
theorem qr_coef_real_stages_witness :
    ((∃ b, (qr_coef_real (scriptedLapack 0 5 0) callerQ 2
        (callerHeap (.real [1, 2, 3]) [3, 1])).result = .ok b) ↔
      lapackInfos (qr_coef_real (scriptedLapack 0 5 0) callerQ 2
        (callerHeap (.real [1, 2, 3]) [3, 1])).state.trace
        = lapackInfos [] ++ [("dormqr", 0), ("dormqr", 0), ("dtrtrs", 0)]) ∧
    (qr_coef_real (scriptedLapack 0 5 0) callerQ 2
        (callerHeap (.real [1, 2, 3]) [3, 1])).result
      = .error (.error "error code %d from Lapack routine '%s'"
          [.int 5, .str "dormqr [work]"]) ∧
    lapackInfos (qr_coef_real (scriptedLapack 0 5 0) callerQ 2
        (callerHeap (.real [1, 2, 3]) [3, 1])).state.trace = [("dormqr", 0), ("dormqr", 5)] :=
  ⟨(qr_coef_real_stages (scriptedLapack 0 5 0) callerQ 2
    (callerHeap (.real [1, 2, 3]) [3, 1]) rfl (by decide) (by decide)).1, rfl, rfl⟩

/-- C10. Let `Bin` and the factorization's `qr` and `qraux` be live
objects. On every exit of `qr_coef_real`, with a result or with an error,
every object that was live at entry is exactly as it was, `Bin`, `qr` and
`qraux` among them. Every LAPACK call that the call adds to the trace
overwrites the buffer of the object at the fresh address `h.next` only. When
the call returns, it returns that address; the object there was made as a
copy of `Bin` and has the `dim` attribute of `Bin`, whose row count is the
row count `n` of `qr`. -/
theorem qr_coef_real_frame {α : Type} (L : Lapack α) (Q : Factorization) (Bin : Nat)
    (h : RHeap α) (hBin : Bin < h.next) (hqr : Q.qr < h.next) (htau : Q.qraux < h.next) :
    (qr_coef_real L Q Bin h).state.obj Bin = h.obj Bin ∧
    (qr_coef_real L Q Bin h).state.obj Q.qr = h.obj Q.qr ∧
    (qr_coef_real L Q Bin h).state.obj Q.qraux = h.obj Q.qraux ∧
    (∀ a, a < h.next → (qr_coef_real L Q Bin h).state.obj a = h.obj a) ∧
    (∃ evs, (qr_coef_real L Q Bin h).state.trace = h.trace ++ evs ∧
      ∀ a ∈ lapackTargets evs, a = h.next) ∧
    (∀ b, (qr_coef_real L Q Bin h).result = .ok b →
      b = h.next ∧
      (.copy Bin b) ∈ (qr_coef_real L Q Bin h).state.trace ∧
      ((qr_coef_real L Q Bin h).state.obj b).dim = (h.obj Bin).dim ∧
      dimAt (qr_coef_real L Q Bin h).state b 0 = dimAt h Q.qr 0) := by
  have key : (∀ a, a < h.next → (qr_coef_real L Q Bin h).state.obj a = h.obj a) ∧
      (∃ evs, (qr_coef_real L Q Bin h).state.trace = h.trace ++ evs ∧
        ∀ a ∈ lapackTargets evs, a = h.next) ∧
      (∀ b, (qr_coef_real L Q Bin h).result = .ok b →
        b = h.next ∧
        (.copy Bin b) ∈ (qr_coef_real L Q Bin h).state.trace ∧
        ((qr_coef_real L Q Bin h).state.obj b).dim = (h.obj Bin).dim ∧
        dimAt (qr_coef_real L Q Bin h).state b 0 = dimAt h Q.qr 0) := by
    by_cases hm : isMatrix (h.obj Bin) = true
    · rw [qr_coef_real_eq L Q Bin h hm hqr]
      by_cases hrows : dimAt h Bin 0 = dimAt h Q.qr 0
      · rw [if_neg (not_not.mpr hrows)]
        refine ⟨fun a ha => ?_, ?_, fun b hb => ?_⟩
        · rw [qr_coef_lapack_obj _ _ _ _ _ _ _ _ _ (by omega), copyHeap_obj _ _ _ _ ha]
        · obtain ⟨evs, he, ht⟩ := qr_coef_lapack_targets L Q.qr Q.qraux h.next
            (dimAt h Q.qr 0) (dimAt h Bin 1) (LENGTH ((copyHeap L Bin h).obj Q.qraux).data)
            (copyHeap L Bin h)
          refine ⟨.copy Bin h.next :: evs, ?_, ?_⟩
          · rw [he, copyHeap_trace]; simp
          · intro a ha
            apply ht
            simpa [lapackTargets] using ha
        · have hbB := qr_coef_lapack_ok _ _ _ _ _ _ _ _ b hb
          subst hbB
          obtain ⟨evs, he, _⟩ := qr_coef_lapack_targets L Q.qr Q.qraux h.next
            (dimAt h Q.qr 0) (dimAt h Bin 1) (LENGTH ((copyHeap L Bin h).obj Q.qraux).data)
            (copyHeap L Bin h)
          refine ⟨rfl, ?_, ?_, ?_⟩
          · rw [he, copyHeap_trace]; simp
          · rw [qr_coef_lapack_dim, copyHeap_dim]
          · unfold dimAt
            rw [qr_coef_lapack_dim, copyHeap_dim]
            exact hrows
      · rw [if_pos hrows]
        refine ⟨fun a ha => copyHeap_obj _ _ _ _ ha, ⟨[.copy Bin h.next], copyHeap_trace _ _ _,
          by simp [lapackTargets]⟩, fun b hb => by cases hb⟩
    · have e : qr_coef_real L Q Bin h
          = ⟨.error (.error "'%s' must be a numeric matrix" [.str "b"]), h⟩ := by
        unfold qr_coef_real
        simp [hm]
      rw [e]
      exact ⟨fun _ _ => rfl, ⟨[], by simp, by simp [lapackTargets]⟩, fun b hb => by cases hb⟩
  exact ⟨key.1 Bin hBin, key.1 Q.qr hqr, key.1 Q.qraux htau, key.1, key.2.1, key.2.2⟩

/-- C10 at an integer 3x1 right-hand side `[1, 2, 3]` with routines that
overwrite their target: `Bin` and `qr` are as they were and the result is
the fresh object at address 3. -/
theorem qr_coef_real_frame_witness :
    (qr_coef_real (scriptedLapack 0 0 0) callerQ 2
        (callerHeap (.other [1, 2, 3]) [3, 1])).state.obj 2
      = { data := .other [1, 2, 3], dim := [3, 1] } ∧
    (qr_coef_real (scriptedLapack 0 0 0) callerQ 2
        (callerHeap (.other [1, 2, 3]) [3, 1])).state.obj 0
      = { data := .real [1, 2, 3, 4, 5, 6], dim := [3, 2] } ∧
    (qr_coef_real (scriptedLapack 0 0 0) callerQ 2
        (callerHeap (.other [1, 2, 3]) [3, 1])).result = .ok 3 :=
  have h := qr_coef_real_frame (scriptedLapack 0 0 0) callerQ 2
    (callerHeap (.other [1, 2, 3]) [3, 1]) (by decide) (by decide) (by decide)
  ⟨h.1, h.2.1, rfl⟩

/-! ## The deviance residuals: claims -/

/-- C11, which the code meets except at `n = 0`, `lmu = 0`. Let the lengths
pass the two checks of `binomial_dev_resids`: `lmu` is `n` or 1 and `lwt` is
`n` or 1. Unless `y` and `mu` are both empty, every read of the call is at
an index strictly smaller than the length of the vector it reads. When `y`
and `mu` are both empty, lengths that pass the check `lmu == n`, the call
makes exactly one read, `rmu[0]` of line 60, at index 0 of a vector of
length 0. -/
theorem binomial_dev_resids_reads {α : Type} (A : Arith α) (y mu wt : SData α)
    (hmu : LENGTH mu = LENGTH y ∨ LENGTH mu = 1)
    (hwt : LENGTH wt = LENGTH y ∨ LENGTH wt = 1) :
    (¬ (LENGTH y = 0 ∧ LENGTH mu = 0) →
      ∀ r ∈ (binomial_dev_resids A y mu wt).reads, r.idx < bufLength y mu wt r.buf) ∧
    (LENGTH y = 0 ∧ LENGTH mu = 0 →
      (binomial_dev_resids A y mu wt).reads = [⟨.mu, 0⟩] ∧
      ¬ (0 < bufLength y mu wt .mu)) := by
  have h1 : ¬ (LENGTH mu ≠ LENGTH y ∧ LENGTH mu ≠ 1) := by omega
  have h2 : ¬ (LENGTH wt ≠ LENGTH y ∧ LENGTH wt ≠ 1) := by omega
  unfold binomial_dev_resids
  dsimp only
  rw [if_neg h1, if_neg h2]
  refine ⟨fun hne r hr => ?_, fun h0 => ?_⟩
  · by_cases h3 : LENGTH mu > 1
    · rw [if_pos h3] at hr
      rcases devLoop_mem _ _ _ _ _ r hr with h | ⟨i, hi, h⟩
      · simp at h
      · simp only [List.mem_cons, List.mem_singleton, List.not_mem_nil, or_false] at h
        rcases h with h | h | h
        · subst h; show i < LENGTH mu; omega
        · subst h; exact hi
        · subst h
          show (if LENGTH wt > 1 then i else 0) < LENGTH wt
          split_ifs <;> omega
    · rw [if_neg h3] at hr
      rcases devLoop_mem _ _ _ _ _ r hr with h | ⟨i, hi, h⟩
      · simp only [List.mem_singleton] at h
        subst h
        show 0 < LENGTH mu
        omega
      · simp only [List.mem_cons, List.mem_singleton, List.not_mem_nil, or_false] at h
        rcases h with h | h
        · subst h; exact hi
        · subst h
          show (if LENGTH wt > 1 then i else 0) < LENGTH wt
          split_ifs <;> omega
  · have h3 : ¬ LENGTH mu > 1 := by omega
    rw [if_neg h3, h0.1]
    refine ⟨rfl, ?_⟩
    show ¬ (0 < LENGTH mu)
    omega

/-- C11 at `y = mu = wt = numeric(0)`: the lengths pass both checks and the
call reads `rmu[0]`, an element of a vector of length 0. -/
theorem binomial_dev_resids_reads_witness :
    (binomial_dev_resids intArith (.real []) (.real []) (.real [])).reads = [⟨.mu, 0⟩] ∧
    ¬ (0 < bufLength (.real ([] : List Int)) (.real []) (.real []) .mu) :=
  (binomial_dev_resids_reads intArith (.real []) (.real []) (.real [])
    (Or.inl rfl) (Or.inl rfl)).2 ⟨rfl, rfl⟩

end TidyTs
